import Mathlib

/-!
Verification of the Graphene IPC port manager and helper loop
(`shim_ipc_helper.c`), the PAL multi-wait primitive (`db_object.c`) and the
SGX eventfd stream driver (`db_eventfd.c`), against the natural-language
specification of the repository.  The C functions are shallowly embedded as
executable Lean functions; external effects (host system calls, stream reads,
registered callbacks) are passed in as explicit arguments or recorded in the
result, so every definition is a pure function of its inputs.
-/

namespace Graphene

/-! ## Role masks

Modelled from the spec: the `IPC_PORT_*` role-bit constants live in
`shim_ipc.h`, which is not among the source files; the spec (§3) describes
`role_mask` as a bitset drawn from SERVER, LISTEN, DIRPRT, PIDLDR, SYSVLDR,
IFPOLL, KEEPALIVE.  A mask is embedded as one Boolean per role bit; the C
bitwise operations `&`, `|`, `& ~` and the zero test become the pointwise
operations below. -/

structure RoleMask where
  server : Bool := false
  listen : Bool := false
  dirprt : Bool := false
  pidldr : Bool := false
  sysvldr : Bool := false
  ifpoll : Bool := false
  keepalive : Bool := false
  deriving DecidableEq, Repr

/-- Bitwise and of two role masks (`a & b`). -/
def RoleMask.inter (a b : RoleMask) : RoleMask :=
  ⟨a.server && b.server, a.listen && b.listen, a.dirprt && b.dirprt,
   a.pidldr && b.pidldr, a.sysvldr && b.sysvldr, a.ifpoll && b.ifpoll,
   a.keepalive && b.keepalive⟩

/-- Bitwise or of two role masks (`a | b`). -/
def RoleMask.union (a b : RoleMask) : RoleMask :=
  ⟨a.server || b.server, a.listen || b.listen, a.dirprt || b.dirprt,
   a.pidldr || b.pidldr, a.sysvldr || b.sysvldr, a.ifpoll || b.ifpoll,
   a.keepalive || b.keepalive⟩

/-- Bits of `a` outside `b` (`a & ~b`). -/
def RoleMask.diff (a b : RoleMask) : RoleMask :=
  ⟨a.server && !b.server, a.listen && !b.listen, a.dirprt && !b.dirprt,
   a.pidldr && !b.pidldr, a.sysvldr && !b.sysvldr, a.ifpoll && !b.ifpoll,
   a.keepalive && !b.keepalive⟩

/-- Zero test on a role mask (C `!type`). -/
def RoleMask.isEmpty (a : RoleMask) : Bool :=
  !a.server && !a.listen && !a.dirprt && !a.pidldr && !a.sysvldr &&
  !a.ifpoll && !a.keepalive

/-- The empty role mask (C integer `0`). -/
def RoleMask.empty : RoleMask := {}

/-- The mask holding only `IPC_PORT_IFPOLL`. -/
def RoleMask.ifpollOnly : RoleMask := { ifpoll := true }

/-- The mask holding only `IPC_PORT_KEEPALIVE`. -/
def RoleMask.keepaliveOnly : RoleMask := { keepalive := true }

theorem RoleMask.isEmpty_iff (a : RoleMask) : a.isEmpty = true ↔ a = .empty := by
  cases a
  simp [RoleMask.isEmpty, RoleMask.empty]
  tauto

/-! ## Helper state machine

From `shim_ipc_helper.c`: the process-wide helper state
(`HELPER_UNINITIALIZED` … `HELPER_HANDEDOVER`), the `ipc_helper_update`
flag, and the wakeup event. -/

inductive HelperState where
  | uninitialized
  | delayed
  | notalive
  | alive
  | handedover
  deriving DecidableEq, Repr

/-- The process-wide helper bookkeeping touched by `restart_ipc_helper`:
`ipc_helper_state`, the `ipc_helper_update` flag, and whether the calling
thread is the helper thread (the `IN_HELPER()` test). -/
structure HelperCtx where
  state : HelperState
  updateFlag : Bool
  inHelper : Bool
  deriving DecidableEq, Repr

/-- External actions `restart_ipc_helper` may take: none, starting the helper
task (`create_ipc_helper`), or signalling the wakeup event
(`set_event(&ipc_helper_event, 1)`). -/
inductive HelperAction where
  | noAction
  | createHelper
  | signalEvent
  deriving DecidableEq, Repr

/-- Shallow embedding of `restart_ipc_helper` (shim_ipc_helper.c:219-242).
The C `switch` falls through from `HELPER_UNINITIALIZED` into the
`HELPER_DELAYED` case, whose body is a bare `return`. -/
def restart_ipc_helper (needCreate : Bool) (ctx : HelperCtx) :
    HelperCtx × HelperAction :=
  match ctx.state with
  | .uninitialized => ({ ctx with state := .delayed }, .noAction)
  | .delayed => (ctx, .noAction)
  | .notalive => (ctx, if needCreate then .createHelper else .noAction)
  | .alive =>
      if ctx.inHelper then ({ ctx with updateFlag := true }, .noAction)
      else (ctx, .signalEvent)
  | .handedover => ({ ctx with updateFlag := true }, .noAction)

/-! ## Exit with helper

From `shim_ipc_helper.c`: `exit_with_ipc_helper`.  The insertion list
`pobj_list` is embedded as the list of the role masks of its ports (the
only field the function reads). -/

/-- Linux errno `EAGAIN`. -/
def EAGAIN : Int := 11
/-- Linux errno `ECHILD`. -/
def ECHILD : Int := 10
/-- Linux errno `ECONNRESET`. -/
def ECONNRESET : Int := 104
/-- Linux errno `ESRCH`. -/
def ESRCH : Int := 3

/-- Result of `exit_with_ipc_helper`: the helper state after the call,
whether the wakeup event was signalled, and the returned code. -/
structure ExitResult where
  state : HelperState
  eventSignaled : Bool
  ret : Int
  deriving DecidableEq, Repr

/-- Shallow embedding of `exit_with_ipc_helper` (shim_ipc_helper.c:1037-1066).
`inHelper` is the `IN_HELPER()` test, `state` the value of
`ipc_helper_state`, and `portTypes` the role masks of the ports on
`pobj_list` in insertion order. -/
def exit_with_ipc_helper (handover : Bool) (inHelper : Bool)
    (state : HelperState) (portTypes : List RoleMask) : ExitResult :=
  if inHelper || state ≠ .alive then
    { state := state, eventSignaled := false, ret := 0 }
  else
    let ho := handover && portTypes.any (fun t => t.keepalive)
    let newState : HelperState := if ho then .handedover else .notalive
    { state := newState, eventSignaled := true,
      ret := if newState = .notalive then 0 else -EAGAIN }

/-! ## Port eviction

From `shim_ipc_helper.c`: `__del_ipc_port`.  A port is embedded through the
fields the function touches: its role mask `info.type`, its membership in the
insertion list (`!list_empty(&port->list)`), its membership in the peer index
(`!hlist_unhashed(&port->hlist)`), the `update` flag, and the reference
count. -/

structure PortState where
  type : RoleMask
  inList : Bool
  hashed : Bool
  update : Bool
  refCount : Nat
  deriving DecidableEq, Repr

/-- Shallow embedding of `__del_ipc_port` (shim_ipc_helper.c:381-418).
Returns the updated port together with the `need_restart` flag.  Each
`__put_ipc_port` call becomes a decrement of `refCount` (at the two call
sites the registry memberships guarantee the count stays positive). -/
def del_ipc_port_core (port : PortState) (mask : RoleMask) :
    PortState × Bool :=
  let cleared := if mask.isEmpty then port.type else mask.inter port.type
  let needRestart := cleared.keepalive != port.type.keepalive
  if (port.type.diff ((cleared.union .ifpollOnly).union .keepaliveOnly)).isEmpty
      = false then
    ({ port with type := port.type.diff cleared, update := true }, needRestart)
  else
    let needRestart := needRestart || port.type.ifpoll
    let port :=
      if port.inList then
        { port with
          inList := false
          type := port.type.inter RoleMask.ifpollOnly
          refCount := port.refCount - 1 }
      else port
    let port :=
      if port.hashed then
        { port with hashed := false, refCount := port.refCount - 1 }
      else port
    ({ port with update := true }, needRestart)

/-! ## Fini-callback installation

From `shim_ipc_helper.c`: the fini-installation step of `__add_ipc_port`
(lines 269-277).  The port's `fini` array of `MAX_IPC_PORT_FINI_CB` slots is
embedded as a list of optional callback identifiers of that length; a `NULL`
slot is `none`.  Modelled from the spec: `MAX_IPC_PORT_FINI_CB` is defined in
`shim_ipc.h`, which is not among the source files; the spec (§3) bounds the
list by `MAX_FINI`, recommended 3. -/

def MAX_IPC_PORT_FINI_CB : Nat := 3

/-- The C scan `for (cb = port->fini; cb < port->fini + MAX; cb++)
if (!*cb || *cb == fini) break;` followed by `*cb = fini`: walk the slots,
overwrite the first slot that is empty or already holds `fini`.  `none` is
the case where the scan runs off the end, i.e. the `assert` in the source
fails. -/
def installFiniSlots : List (Option Nat) → Nat → Option (List (Option Nat))
  | [], _ => none
  | s :: rest, cb =>
      if s = none ∨ s = some cb then some (some cb :: rest)
      else (installFiniSlots rest cb).map (s :: ·)

/-- The fini-installation step of `__add_ipc_port`
(shim_ipc_helper.c:269-277): the body runs only when a callback is supplied
and the admitted role mask has a bit outside `IPC_PORT_IFPOLL`
(`if (fini && (type & ~IPC_PORT_IFPOLL))`). -/
def add_ipc_port_fini (slots : List (Option Nat)) (fini : Option Nat)
    (type : RoleMask) : Option (List (Option Nat)) :=
  match fini with
  | some cb =>
      if (type.diff .ifpollOnly).isEmpty = false then installFiniSlots slots cb
      else some slots
  | none => some slots

/-! ## Broadcast

From `shim_ipc_helper.c`: `broadcast_ipc`.  Ports carry an identity `pid`
standing for the C pointer (the exclusion list compares pointers), the peer
id `vmid` (`info.vmid`), and the role mask `info.type`.  Each call to
`send_ipc_message` is recorded as a pair (port identity, `msg->dst` at the
moment of the send); the per-send results are supplied by the oracle
`sendResult`, whose value the fan-out loop ignores and the broadcast-stream
path checks. -/

structure BcastPort where
  pid : Nat
  vmid : Nat
  type : RoleMask
  deriving DecidableEq, Repr

/-- Result of `broadcast_ipc`: the returned code and the sequence of sends
performed, each recorded as (port identity, destination peer id). -/
structure BcastResult where
  ret : Int
  sends : List (Nat × Nat)
  deriving DecidableEq, Repr

/-- The fan-out loop of `broadcast_ipc` (shim_ipc_helper.c:573-593): walk the
insertion list; for each port whose type intersects `target_type`, skip it if
the exclusion list is nonempty and contains the port, otherwise set
`msg->dst` to the port's peer id and send.  Send results are not consulted. -/
def broadcastLoop (ports : List BcastPort) (exclude : List Nat)
    (targetType : RoleMask) : List (Nat × Nat) :=
  match ports with
  | [] => []
  | p :: rest =>
      if (p.type.inter targetType).isEmpty = false then
        if exclude ≠ [] && exclude.contains p.pid then
          broadcastLoop rest exclude targetType
        else
          (p.pid, p.vmid) :: broadcastLoop rest exclude targetType
      else broadcastLoop rest exclude targetType

/-- Shallow embedding of `broadcast_ipc` (shim_ipc_helper.c:552-597).
`broadcastPort` is the global `broadcast_port` (its pointer identity), or
`none` when unset; `msgDst` is the incoming `msg->dst`, which the
broadcast-stream path sends unchanged; `sendResult` gives the return code of
`send_ipc_message` for each port identity. -/
def broadcast_ipc (msgDst : Nat) (exclude : List Nat) (targetType : RoleMask)
    (broadcastPort : Option Nat) (ports : List BcastPort)
    (sendResult : Nat → Int) : BcastResult :=
  match broadcastPort with
  | some bpid =>
      if targetType.isEmpty then
        if exclude.contains bpid then { ret := 0, sends := [] }
        else if sendResult bpid = 0 then
          { ret := 0, sends := [(bpid, msgDst)] }
        else
          { ret := 0,
            sends :=
              (bpid, msgDst) :: broadcastLoop ports exclude targetType }
      else { ret := 0, sends := broadcastLoop ports exclude targetType }
  | none => { ret := 0, sends := broadcastLoop ports exclude targetType }

/-! ## Framed receive loop

From `shim_ipc_helper.c`: `receive_ipc_message` (lines 672-762).  The loop is
embedded at message granularity: the byte-oriented buffer management (the
`__alloca` growth, read-ahead, `memmove` of the remainder) delivers to the
processing code a sequence of complete framed messages, terminated either by
a zero-length `DkStreamRead` (with the host errno `PAL_NATIVE_ERRNO`, zero
when no error is pending) or by the stream simply having no further data.
That sequence is the `List StreamEvent` argument; the per-message processing
(lines 703-755) is translated verbatim.  Oracles: `registered` tells whether
`ipc_callbacks[code]` is non-NULL, `callback` gives the callback's return
value, `respRet` the return of `__response_ipc_message`, and `palErrno` the
host-errno to unix-errno translation `PAL_ERRNO`. -/

structure IpcMsg where
  code : Nat
  size : Nat
  src : Nat
  dst : Nat
  seq : Nat
  deriving DecidableEq, Repr

inductive StreamEvent where
  | msg (m : IpcMsg)
  | readFail (nativeErrno : Nat)
  deriving DecidableEq, Repr

/-- Modelled from the spec: the sentinel return value by which a callback
requests that the helper send an `IPC_RESP` (`RESPONSE_CALLBACK`, defined in
a header that is not among the source files).  Only its distinctness from
genuine negative codes matters. -/
def RESPONSE_CALLBACK : Int := 1

/-- Outcome of one `receive_ipc_message` call: the message returned to the
caller (if its sequence match fired), the messages dispatched to a
registered callback, the `(dst, seq)` pairs of `IPC_RESP` replies sent, the
exit code passed to `del_ipc_port_fini` if the port was torn down, and the
returned code. -/
structure ReceiveResult where
  consumed : Option IpcMsg
  dispatched : List IpcMsg
  responses : List (Nat × Nat)
  teardown : Option Int
  ret : Int
  deriving DecidableEq, Repr

/-- Accumulator of the receive loop: messages dispatched so far, responses
sent so far, and the current value of the C variable `ret`. -/
structure RecvState where
  dispatched : List IpcMsg
  responses : List (Nat × Nat)
  ret : Int
  deriving DecidableEq, Repr

/-- The do-while loop of `receive_ipc_message` (shim_ipc_helper.c:683-755).
A `readFail` event is a zero-length read at a message boundary (`!bytes`):
with a pending host errno the port is torn down via
`del_ipc_port_fini(port, -ECHILD)` and `ret` becomes `-PAL_ERRNO`; otherwise
the loop just breaks with `ret = 0`.  A `msg` event is one complete frame:
it is returned to the caller when `msgptr` was supplied and the sequence
matches (`!seq || msg->seq == seq`), silently skipped when it originates
from this process (`msg->src == cur_process.vmid`), and otherwise dispatched
to the registered callback, replying with `IPC_RESP` when the callback
demands it and the frame carries a sequence number. -/
def receive_loop (selfVmid : Nat) (seq : Nat) (wantMsg : Bool)
    (registered : Nat → Bool) (callback : IpcMsg → Int)
    (respRet : IpcMsg → Int) (palErrno : Nat → Int) :
    RecvState → List StreamEvent → ReceiveResult
  | st, [] =>
      { consumed := none, dispatched := st.dispatched,
        responses := st.responses, teardown := none, ret := st.ret }
  | st, .readFail e :: _ =>
      if e ≠ 0 then
        { consumed := none, dispatched := st.dispatched,
          responses := st.responses, teardown := some (-ECHILD),
          ret := -(palErrno e) }
      else
        { consumed := none, dispatched := st.dispatched,
          responses := st.responses, teardown := none, ret := 0 }
  | st, .msg m :: rest =>
      if wantMsg && (seq == 0 || m.seq == seq) then
        { consumed := some m, dispatched := st.dispatched,
          responses := st.responses, teardown := none, ret := 0 }
      else if m.src == selfVmid then
        receive_loop selfVmid seq wantMsg registered callback respRet palErrno
          st rest
      else if registered m.code then
        let c := callback m
        if (c < 0 ∨ c = RESPONSE_CALLBACK) ∧ m.seq ≠ 0 then
          receive_loop selfVmid seq wantMsg registered callback respRet
            palErrno
            { dispatched := st.dispatched ++ [m]
              responses := st.responses ++ [(m.src, m.seq)]
              ret := respRet m } rest
        else
          receive_loop selfVmid seq wantMsg registered callback respRet
            palErrno
            { st with dispatched := st.dispatched ++ [m], ret := c } rest
      else
        receive_loop selfVmid seq wantMsg registered callback respRet palErrno
          st rest

/-- Shallow embedding of `receive_ipc_message` (shim_ipc_helper.c:672-762):
run the loop from the initial state (`bytes = 0, ret = 0`, nothing
dispatched).  `wantMsg` is `msgptr != NULL`. -/
def receive_ipc_message (selfVmid : Nat) (seq : Nat) (wantMsg : Bool)
    (registered : Nat → Bool) (callback : IpcMsg → Int)
    (respRet : IpcMsg → Int) (palErrno : Nat → Int)
    (events : List StreamEvent) : ReceiveResult :=
  receive_loop selfVmid seq wantMsg registered callback respRet palErrno
    { dispatched := [], responses := [], ret := 0 } events

/-! ## PAL multi-wait primitive

From `db_object.c`: `_DkObjectWaitOne` and `_DkObjectsWaitAny`.  A PAL
handle with file descriptors is embedded through the per-slot flag bits the
code reads and writes (`RFD`, `WFD`, `WRITEABLE`, `ERROR`) and the `fds`
array; the handle store maps a pointer identity to that data, so aliased
array entries share their flags as in C.  The single `ppoll` system call is
an oracle: either an errno, or the `revents` delivered for each submitted
poll entry.  Modelled from the spec: `MAX_FDS`, `PAL_IDX_POISON`, the
`PAL_ERROR_*` codes and the `EINTR`/`ERESTART` errnos come from PAL headers
that are not among the source files; only their distinctness matters. -/

def MAX_FDS : Nat := 3

def PAL_IDX_POISON : Nat := 2 ^ 32 - 1

def PAL_ERROR_NOTSUPPORT : Int := 3
def PAL_ERROR_INVAL : Int := 4
def PAL_ERROR_BADHANDLE : Int := 7
def PAL_ERROR_INTERRUPTED : Int := 13
def PAL_ERROR_TRYAGAIN : Int := 19
def PAL_ERROR_NOTCONNECTION : Int := 22

def EINTR : Nat := 4
def ERESTART : Nat := 85

/-- The fd-bearing part of a PAL handle (`handle->__in`): per-slot flag bits
and the fd array, each indexed by a slot below `MAX_FDS`. -/
structure FdHandle where
  hasFds : Bool
  rfd : List Bool
  wfd : List Bool
  writeable : List Bool
  errorFlags : List Bool
  fds : List Nat
  deriving DecidableEq, Repr

/-- Revents bits of one poll entry. -/
structure Revents where
  pollin : Bool := false
  pollout : Bool := false
  pollhup : Bool := false
  pollerr : Bool := false
  deriving DecidableEq, Repr

/-- Zero test on a revents word. -/
def Revents.isZero (r : Revents) : Bool :=
  !r.pollin && !r.pollout && !r.pollhup && !r.pollerr

/-- Outcome of the single `ppoll` call: an errno, or the revents delivered
for the submitted entries in order (missing entries count as zero). -/
inductive PollOutcome where
  | fail (errno : Nat)
  | ready (revs : List Revents)

/-- The handle store: pointer identity to handle data. -/
def HandleStore : Type := Nat → FdHandle

/-- Pointwise store update at one identity. -/
def storeSet (store : HandleStore) (hid : Nat) (h : FdHandle) : HandleStore :=
  fun x => if x = hid then h else store x

/-- Set the `WRITEABLE`/`ERROR` bits of slot `j` as directed. -/
def setSlotFlags (h : FdHandle) (j : Nat) (setW setE : Bool) : FdHandle :=
  { h with
    writeable := if setW then h.writeable.set j true else h.writeable
    errorFlags := if setE then h.errorFlags.set j true else h.errorFlags }

/-- Poll entries of one handle in `_DkObjectsWaitAny` (db_object.c:177-196):
slot `j` is submitted when it wants `POLLIN` (readable and not in error) or
`POLLOUT` (writable, not yet marked writeable, not in error) and its fd is
not `PAL_IDX_POISON`.  Only the fd is recorded; the slot is re-derived from
the fd when revents are applied, as in the source. -/
def handleEntries (h : FdHandle) : List Nat :=
  (List.range MAX_FDS).filterMap (fun j =>
    let wantIn := h.rfd.getD j false && !(h.errorFlags.getD j false)
    let wantOut := h.wfd.getD j false && !(h.writeable.getD j false) &&
                   !(h.errorFlags.getD j false)
    if (wantIn || wantOut) && h.fds.getD j 0 ≠ PAL_IDX_POISON then
      some (h.fds.getD j 0)
    else none)

/-- First pass of `_DkObjectsWaitAny` (db_object.c:165-197): walk the handle
array, skip NULL entries and entries repeating an earlier handle, and emit
each remaining handle's poll entries as (fd, handle identity) pairs. -/
def buildPollList (store : HandleStore) :
    List (Option Nat) → List Nat → List (Nat × Nat)
  | [], _ => []
  | none :: rest, seen => buildPollList store rest seen
  | some hid :: rest, seen =>
      if seen.contains hid then buildPollList store rest seen
      else
        (handleEntries (store hid)).map (fun fd => (fd, hid)) ++
          buildPollList store rest (hid :: seen)

/-- Pair each submitted entry with its delivered revents; entries beyond the
delivered list read zero revents. -/
def zipRevents : List (Nat × Nat) → List Revents →
    List ((Nat × Nat) × Revents)
  | [], _ => []
  | e :: es, [] => (e, {}) :: zipRevents es []
  | e :: es, r :: rs => (e, r) :: zipRevents es rs

/-- The slot search of db_object.c:242-245: first slot of the handle that
carries `RFD` or `WFD` and whose fd equals the polled fd. -/
def findSlot (h : FdHandle) (fd : Nat) : Option Nat :=
  (List.range MAX_FDS).find? (fun j =>
    (h.rfd.getD j false || h.wfd.getD j false) && h.fds.getD j 0 == fd)

/-- The revents-application loop of `_DkObjectsWaitAny` (db_object.c:227-254):
skip zero revents; the first ready handle becomes the polled handle and
later entries of other handles are ignored; for a processed entry, find the
slot by fd and raise `WRITEABLE` on `POLLOUT` and `ERROR` on
`POLLHUP|POLLERR`. -/
def applyRevents (store : HandleStore) (polled : Option Nat) :
    List ((Nat × Nat) × Revents) → HandleStore × Option Nat
  | [] => (store, polled)
  | ((fd, hid), rev) :: rest =>
      if rev.isZero then applyRevents store polled rest
      else if polled.getD hid ≠ hid then applyRevents store polled rest
      else
        match findSlot (store hid) fd with
        | none => applyRevents store (some hid) rest
        | some j =>
            applyRevents
              (storeSet store hid
                (setSlotFlags (store hid) j rev.pollout
                  (rev.pollhup || rev.pollerr)))
              (some hid) rest

/-- Result of a wait: the returned code, the polled handle reported through
the out-parameter, and the handle store after the flag updates. -/
structure WaitResult where
  ret : Int
  polled : Option Nat
  store : HandleStore

/-- The multi-handle path of `_DkObjectsWaitAny` (db_object.c:137-257),
reached when `count >= 2`.  `unixToPal` is the default errno translation of
`unix_to_pal_error`. -/
def dkObjectsWaitAnyMulti (store : HandleStore) (arr : List (Option Nat))
    (outcome : PollOutcome) (unixToPal : Nat → Int) : WaitResult :=
  if arr.any (fun o => match o with
      | some hid => !(store hid).hasFds
      | none => false) then
    { ret := -PAL_ERROR_NOTSUPPORT, polled := none, store := store }
  else
    let entries := buildPollList store arr []
    if entries = [] then
      { ret := -PAL_ERROR_TRYAGAIN, polled := none, store := store }
    else
      match outcome with
      | .fail e =>
          if e = EINTR ∨ e = ERESTART then
            { ret := -PAL_ERROR_INTERRUPTED, polled := none, store := store }
          else { ret := unixToPal e, polled := none, store := store }
      | .ready revs =>
          let zipped := zipRevents entries revs
          if zipped.countP (fun x => !x.2.isZero) = 0 then
            { ret := -PAL_ERROR_TRYAGAIN, polled := none, store := store }
          else
            let out := applyRevents store none zipped
            { ret := if out.2.isSome then 0 else -PAL_ERROR_TRYAGAIN,
              polled := out.2, store := out.1 }

/-- Poll entries of `_DkObjectWaitOne` (db_object.c:61-83): as in the
multi-handle pass but with no `PAL_IDX_POISON` check, and the slot index is
remembered directly (the `off` array). -/
def waitOneEntries (h : FdHandle) : List (Nat × Nat) :=
  (List.range MAX_FDS).filterMap (fun j =>
    let wantIn := h.rfd.getD j false && !(h.errorFlags.getD j false)
    let wantOut := h.wfd.getD j false && !(h.writeable.getD j false) &&
                   !(h.errorFlags.getD j false)
    if wantIn || wantOut then some (h.fds.getD j 0, j) else none)

/-- The revents application of `_DkObjectWaitOne` (db_object.c:104-111):
the slot is known, so the flags are raised directly. -/
def applyWaitOneRevents (h : FdHandle) :
    List ((Nat × Nat) × Revents) → FdHandle
  | [] => h
  | ((_, j), rev) :: rest =>
      if rev.isZero then applyWaitOneRevents h rest
      else
        applyWaitOneRevents
          (setSlotFlags h j rev.pollout (rev.pollhup || rev.pollerr)) rest

/-- Shallow embedding of `_DkObjectWaitOne` (db_object.c:46-122).
`opsWaitRes` is the result of `ops->wait` for handles without fds (`none`
when the handle has no wait operation). -/
def dkObjectWaitOne (store : HandleStore) (hid : Nat)
    (outcome : PollOutcome) (opsWaitRes : Option Int)
    (unixToPal : Nat → Int) : WaitResult :=
  let h := store hid
  if h.hasFds then
    let entries := waitOneEntries h
    if entries = [] then
      { ret := -PAL_ERROR_TRYAGAIN, polled := none, store := store }
    else
      match outcome with
      | .fail e =>
          if e = EINTR ∨ e = ERESTART then
            { ret := -PAL_ERROR_INTERRUPTED, polled := none, store := store }
          else { ret := unixToPal e, polled := none, store := store }
      | .ready revs =>
          let zipped := zipRevents entries revs
          if zipped.countP (fun x => !x.2.isZero) = 0 then
            { ret := -PAL_ERROR_TRYAGAIN, polled := none, store := store }
          else
            { ret := 0, polled := none,
              store := storeSet store hid (applyWaitOneRevents h zipped) }
  else
    match opsWaitRes with
    | none => { ret := -PAL_ERROR_NOTSUPPORT, polled := none, store := store }
    | some r => { ret := r, polled := none, store := store }

/-- Shallow embedding of `_DkObjectsWaitAny` (db_object.c:126-258).  An
empty array returns 0 (`count <= 0`); a one-element array reports that
handle as polled and delegates to `_DkObjectWaitOne` (a NULL single entry
would dereference NULL in C and is given a stub value here); otherwise the
multi-handle path runs. -/
def dkObjectsWaitAny (store : HandleStore) (arr : List (Option Nat))
    (outcome : PollOutcome) (opsWaitRes : Option Int)
    (unixToPal : Nat → Int) : WaitResult :=
  match arr with
  | [] => { ret := 0, polled := none, store := store }
  | [some hid] =>
      { dkObjectWaitOne store hid outcome opsWaitRes unixToPal with
        polled := some hid }
  | [none] => { ret := 0, polled := none, store := store }
  | _ => dkObjectsWaitAnyMulti store arr outcome unixToPal

/-! ## Eventfd stream driver

From `db_eventfd.c`: the read, write, attribute-query and close operations.
A handle is embedded through the fields these operations touch; host system
calls (`ocall_read`, `ocall_write`, `ocall_close`, `ocall_fionread`,
`ocall_poll`) are oracles whose invocations are recorded in the result, so
"no I/O was performed" is the recorded list being empty. -/

inductive HostOp where
  | hread (fd : Nat)
  | hwrite (fd : Nat)
  | hclose (fd : Nat)
  | hfionread (fd : Nat)
  | hpoll (fd : Nat)
  deriving DecidableEq, Repr

structure EventfdHandle where
  isEventfd : Bool
  fd : Nat
  nonblocking : Bool
  errorFlag : Bool
  deriving DecidableEq, Repr

/-- Shallow embedding of `eventfd_pal_read` (db_eventfd.c:79-97).
`hostRead` gives the `ocall_read` result for an fd, `unixToPal` translates a
negative host result. -/
def eventfd_pal_read (h : EventfdHandle) (offset len : Nat)
    (hostRead : Nat → Int) (unixToPal : Int → Int) : Int × List HostOp :=
  if offset ≠ 0 then (-PAL_ERROR_INVAL, [])
  else if !h.isEventfd then (-PAL_ERROR_NOTCONNECTION, [])
  else if len < 8 then (-PAL_ERROR_INVAL, [])
  else
    let bytes := hostRead h.fd
    if bytes < 0 then (unixToPal bytes, [.hread h.fd])
    else (bytes, [.hread h.fd])

/-- Shallow embedding of `eventfd_pal_write` (db_eventfd.c:99-115). -/
def eventfd_pal_write (h : EventfdHandle) (offset len : Nat)
    (hostWrite : Nat → Int) (unixToPal : Int → Int) : Int × List HostOp :=
  if offset ≠ 0 then (-PAL_ERROR_INVAL, [])
  else if !h.isEventfd then (-PAL_ERROR_NOTCONNECTION, [])
  else if len < 8 then (-PAL_ERROR_INVAL, [])
  else
    let bytes := hostWrite h.fd
    if bytes < 0 then (unixToPal bytes, [.hwrite h.fd])
    else (bytes, [.hwrite h.fd])

/-- The attribute record filled by `eventfd_pal_attrquerybyhdl`. -/
structure StreamAttr where
  nonblocking : Bool
  disconnected : Bool
  pendingSize : Int
  readable : Bool
  writable : Bool
  deriving DecidableEq, Repr

/-- Shallow embedding of `eventfd_pal_attrquerybyhdl` (db_eventfd.c:118-151).
`fionreadRes` is the `ocall_fionread` result, `pollRes` the `ocall_poll`
return and `rev` the revents it delivered. -/
def eventfd_pal_attrquerybyhdl (h : EventfdHandle) (fionreadRes : Int)
    (pollRes : Int) (rev : Revents) (unixToPal : Int → Int) :
    Int × Option StreamAttr × List HostOp :=
  if h.fd = PAL_IDX_POISON then (-PAL_ERROR_BADHANDLE, none, [])
  else if fionreadRes < 0 then
    (unixToPal fionreadRes, none, [.hfionread h.fd])
  else if pollRes < 0 then
    (unixToPal pollRes, none, [.hfionread h.fd, .hpoll h.fd])
  else
    (0, some
      { nonblocking := h.nonblocking
        disconnected := h.errorFlag
        pendingSize := fionreadRes
        readable := pollRes = 1 && (rev.pollin && !rev.pollerr && !rev.pollhup)
        writable :=
          pollRes = 1 && (rev.pollout && !rev.pollerr && !rev.pollhup) },
      [.hfionread h.fd, .hpoll h.fd])

/-- Shallow embedding of `eventfd_pal_close` (db_eventfd.c:153-163): on an
eventfd handle whose fd is not yet poisoned, close the host fd and poison
it; in every case return 0. -/
def eventfd_pal_close (h : EventfdHandle) :
    EventfdHandle × Int × List HostOp :=
  if h.isEventfd then
    if h.fd ≠ PAL_IDX_POISON then
      ({ h with fd := PAL_IDX_POISON }, 0, [.hclose h.fd])
    else (h, 0, [])
  else (h, 0, [])

/-! ## Theorems for the claims -/

/-- C4: `restart_ipc_helper` observes the helper state-machine contract for
every call: in UNINITIALIZED it moves the state to DELAYED and returns; in
DELAYED it is a no-op; in NOTALIVE it starts the helper task iff
`need_create` is true; in ALIVE it sets the update flag when the caller is
the helper thread and otherwise signals the wakeup event; in HANDEDOVER it
sets the update flag. -/
theorem C4_restart_ipc_helper_contract (ctx : HelperCtx) (needCreate : Bool) :
    (ctx.state = .uninitialized →
      restart_ipc_helper needCreate ctx =
        ({ ctx with state := .delayed }, .noAction)) ∧
    (ctx.state = .delayed →
      restart_ipc_helper needCreate ctx = (ctx, .noAction)) ∧
    (ctx.state = .notalive →
      restart_ipc_helper needCreate ctx =
        (ctx, if needCreate then .createHelper else .noAction) ∧
      ((restart_ipc_helper needCreate ctx).2 = .createHelper ↔
        needCreate = true)) ∧
    (ctx.state = .alive → ctx.inHelper = true →
      restart_ipc_helper needCreate ctx =
        ({ ctx with updateFlag := true }, .noAction)) ∧
    (ctx.state = .alive → ctx.inHelper = false →
      restart_ipc_helper needCreate ctx = (ctx, .signalEvent)) ∧
    (ctx.state = .handedover →
      restart_ipc_helper needCreate ctx =
        ({ ctx with updateFlag := true }, .noAction)) := by
  obtain ⟨s, u, ih⟩ := ctx
  refine ⟨?_, ?_, ?_, ?_, ?_, ?_⟩ <;> rintro rfl
  · rfl
  · rfl
  · constructor
    · rfl
    · cases needCreate <;> simp [restart_ipc_helper]
  · rintro rfl
    simp [restart_ipc_helper]
  · rintro rfl
    simp [restart_ipc_helper]
  · rfl

/-- Witness for C4: the contract evaluated at concrete states: a call in
NOTALIVE with `need_create` starts the helper, and a call in ALIVE from
outside the helper signals the event. -/
theorem C4_restart_ipc_helper_contract_witness :
    restart_ipc_helper true ⟨.notalive, false, false⟩ =
      (⟨.notalive, false, false⟩, .createHelper) ∧
    restart_ipc_helper false ⟨.alive, false, false⟩ =
      (⟨.alive, false, false⟩, .signalEvent) := by
  constructor
  · exact ((C4_restart_ipc_helper_contract ⟨.notalive, false, false⟩
      true).2.2.1 rfl).1
  · exact (C4_restart_ipc_helper_contract ⟨.alive, false, false⟩
      false).2.2.2.2.1 rfl rfl

/-- C5 counterexample: the claim asserts that every call to
`exit_with_ipc_helper` moves the state and signals the wakeup event, but a
call made from the helper thread itself (here in state ALIVE with a
KEEPALIVE port on the list and `handover = true`) returns 0 immediately:
the state stays ALIVE instead of becoming HANDEDOVER, the return code is 0
instead of a retry code, and the event is not signalled. -/
theorem C5_exit_with_ipc_helper_counterexample :
    exit_with_ipc_helper true true .alive [{ keepalive := true }] =
      { state := .alive, eventSignaled := false, ret := 0 } ∧
    (exit_with_ipc_helper true true .alive [{ keepalive := true }]).state ≠
      .handedover ∧
    (exit_with_ipc_helper true true .alive
      [{ keepalive := true }]).eventSignaled ≠ true := by
  decide

/-- C5 amended: when the caller is not the helper thread and the helper
state is ALIVE, `exit_with_ipc_helper(handover)` behaves as claimed — with
handover requested and a KEEPALIVE port on the list the state becomes
HANDEDOVER, the event is signalled and `-EAGAIN` is returned; otherwise the
state becomes NOTALIVE, the event is signalled and 0 is returned.  Any
other call (from the helper thread, or in a state other than ALIVE) returns
0 immediately, leaving the state unchanged and the event unsignalled. -/
theorem C5_exit_with_ipc_helper_amended (handover inHelper : Bool)
    (state : HelperState) (portTypes : List RoleMask) :
    (inHelper = false → state = .alive →
      ((handover && portTypes.any (fun t => t.keepalive)) = true →
        exit_with_ipc_helper handover inHelper state portTypes =
          { state := .handedover, eventSignaled := true, ret := -EAGAIN }) ∧
      ((handover && portTypes.any (fun t => t.keepalive)) = false →
        exit_with_ipc_helper handover inHelper state portTypes =
          { state := .notalive, eventSignaled := true, ret := 0 })) ∧
    (inHelper = true ∨ state ≠ .alive →
      exit_with_ipc_helper handover inHelper state portTypes =
        { state := state, eventSignaled := false, ret := 0 }) := by
  constructor
  · rintro rfl rfl
    constructor <;> intro h <;>
      simp [exit_with_ipc_helper, h]
  · intro h
    have : (inHelper || !(decide (state = HelperState.alive))) = true ∨
        inHelper = true := by
      rcases h with h | h
      · right
        exact h
      · left
        simp [h]
    unfold exit_with_ipc_helper
    rcases this with h2 | h2 <;> simp [h2]

/-- Witness for C5 amended: a non-helper caller in ALIVE with one KEEPALIVE
port hands over and gets the retry code; the same caller with no KEEPALIVE
port shuts the helper down and gets 0. -/
theorem C5_exit_with_ipc_helper_amended_witness :
    exit_with_ipc_helper true false .alive [{ keepalive := true }] =
      { state := .handedover, eventSignaled := true, ret := -EAGAIN } ∧
    exit_with_ipc_helper true false .alive [{ listen := true }] =
      { state := .notalive, eventSignaled := true, ret := 0 } := by
  constructor
  · exact ((C5_exit_with_ipc_helper_amended true false .alive
      [{ keepalive := true }]).1 rfl rfl).1 (by decide)
  · exact ((C5_exit_with_ipc_helper_amended true false .alive
      [{ listen := true }]).1 rfl rfl).2 (by decide)

/-- The fini-slot array as maintained by the code: every occupied slot
precedes every free slot (slots are filled from the front and only ever
cleared all at once by `del_ipc_port_fini`). -/
def finiPacked : List (Option Nat) → Bool
  | [] => true
  | none :: rest => rest.all (· = none)
  | some _ :: rest => finiPacked rest

theorem installFiniSlots_cons (s : Option Nat) (rest : List (Option Nat))
    (cb : Nat) :
    installFiniSlots (s :: rest) cb =
      if s = none ∨ s = some cb then some (some cb :: rest)
      else (installFiniSlots rest cb).map (s :: ·) := by
  rfl

theorem installFiniSlots_length (slots : List (Option Nat)) (cb : Nat)
    (res : List (Option Nat)) (h : installFiniSlots slots cb = some res) :
    res.length = slots.length := by
  induction slots generalizing res with
  | nil => simp [installFiniSlots] at h
  | cons s rest ih =>
      rw [installFiniSlots_cons] at h
      by_cases hs : s = none ∨ s = some cb
      · rw [if_pos hs] at h
        cases h
        simp
      · rw [if_neg hs] at h
        cases hr : installFiniSlots rest cb with
        | none => simp [hr] at h
        | some r =>
            simp [hr] at h
            subst h
            simp [ih r hr]

theorem installFiniSlots_mem (slots : List (Option Nat)) (cb : Nat)
    (hp : finiPacked slots = true) (hm : some cb ∈ slots) :
    installFiniSlots slots cb = some slots := by
  induction slots with
  | nil => simp at hm
  | cons s rest ih =>
      match s, hm with
      | none, hm =>
          have hall : rest.all (· = none) = true := by
            simpa [finiPacked] using hp
          rcases List.mem_cons.mp hm with h1 | h1
          · cases h1
          · have := (List.all_eq_true.mp hall) _ h1
            simp at this
      | some d, hm =>
          by_cases hd : d = cb
          · subst hd
            simp [installFiniSlots]
          · have hm2 : some cb ∈ rest := by
              rcases List.mem_cons.mp hm with h1 | h1
              · exact absurd (Option.some.inj h1).symm hd
              · exact h1
            have hp2 : finiPacked rest = true := by
              simpa [finiPacked] using hp
            simp [installFiniSlots, hd, ih hp2 hm2]

theorem installFiniSlots_append (slots : List (Option Nat)) (cb : Nat)
    (hp : finiPacked slots = true) (hm : some cb ∉ slots)
    (hfree : none ∈ slots) :
    ∃ res, installFiniSlots slots cb = some res ∧
      res.length = slots.length ∧
      res.filterMap id = slots.filterMap id ++ [cb] := by
  induction slots with
  | nil => simp at hfree
  | cons s rest ih =>
      match s with
      | none =>
          have hall : rest.all (· = none) = true := by
            simpa [finiPacked] using hp
          refine ⟨some cb :: rest, by simp [installFiniSlots], by simp, ?_⟩
          have hrest : rest.filterMap id = [] := by
            rw [List.filterMap_eq_nil_iff]
            intro a ha
            have := (List.all_eq_true.mp hall) _ ha
            simp at this
            simp [this]
          simp [hrest]
      | some d =>
          have hd : d ≠ cb := by
            intro h
            exact hm (by simp [h])
          have hm2 : some cb ∉ rest := fun h => hm (List.mem_cons_of_mem _ h)
          have hfree2 : none ∈ rest := by
            rcases List.mem_cons.mp hfree with h1 | h1
            · cases h1
            · exact h1
          have hp2 : finiPacked rest = true := by
            simpa [finiPacked] using hp
          obtain ⟨r, hr, hlen, hfm⟩ := ih hp2 hm2 hfree2
          refine ⟨some d :: r, ?_, by simp [hlen], by simp [hfm]⟩
          simp [installFiniSlots, hd, hr]

theorem installFiniSlots_full (slots : List (Option Nat)) (cb : Nat)
    (hm : some cb ∉ slots) (hfree : none ∉ slots) :
    installFiniSlots slots cb = none := by
  induction slots with
  | nil => rfl
  | cons s rest ih =>
      match s with
      | none => exact absurd (List.mem_cons_self _ _) hfree
      | some d =>
          have hd : d ≠ cb := fun h => hm (by simp [h])
          have hm2 : some cb ∉ rest := fun h => hm (List.mem_cons_of_mem _ h)
          have hfree2 : none ∉ rest := fun h => hfree (List.mem_cons_of_mem _ h)
          simp [installFiniSlots, hd, ih hm2 hfree2]

/-- C8 counterexample: the claim asserts that a supplied fini callback not
already present is appended by every admit, but `__add_ipc_port` installs
the callback only when the admitted role mask has a bit outside
`IPC_PORT_IFPOLL`: an admit with role mask exactly IFPOLL and a fresh
callback leaves the (empty) fini list unchanged. -/
theorem C8_add_ipc_port_fini_counterexample :
    add_ipc_port_fini [none, none, none] (some 7) RoleMask.ifpollOnly =
      some [none, none, none] ∧
    some 7 ∉ ([none, none, none] : List (Option Nat)) := by
  decide

/-- C8 amended: on fini-slot arrays as maintained by the code (occupied
slots packed at the front), the fini installation of `__add_ipc_port` is
idempotent — a callback already present leaves the array unchanged — it
never grows the array beyond its `MAX_IPC_PORT_FINI_CB` slots, and a fresh
callback is appended after the occupied slots whenever the admit's role
mask has a bit outside `IPC_PORT_IFPOLL` and a slot is free; with a role
mask within IFPOLL nothing is installed, and with all slots occupied by
other callbacks the source assertion fails. -/
theorem C8_add_ipc_port_fini_amended (slots : List (Option Nat)) (cb : Nat)
    (type : RoleMask) :
    (∀ res, add_ipc_port_fini slots (some cb) type = some res →
      res.length = slots.length) ∧
    (finiPacked slots = true → some cb ∈ slots →
      add_ipc_port_fini slots (some cb) type = some slots) ∧
    (finiPacked slots = true → some cb ∉ slots → none ∈ slots →
      (type.diff .ifpollOnly).isEmpty = false →
      ∃ res, add_ipc_port_fini slots (some cb) type = some res ∧
        res.filterMap id = slots.filterMap id ++ [cb]) ∧
    ((type.diff .ifpollOnly).isEmpty = true →
      add_ipc_port_fini slots (some cb) type = some slots) ∧
    (some cb ∉ slots → none ∉ slots →
      (type.diff .ifpollOnly).isEmpty = false →
      add_ipc_port_fini slots (some cb) type = none) := by
  refine ⟨?_, ?_, ?_, ?_, ?_⟩
  · intro res h
    simp only [add_ipc_port_fini] at h
    by_cases hg : (type.diff .ifpollOnly).isEmpty = false
    · rw [if_pos hg] at h
      exact installFiniSlots_length slots cb res h
    · rw [if_neg hg] at h
      cases h
      rfl
  · intro hp hm
    simp only [add_ipc_port_fini]
    by_cases hg : (type.diff .ifpollOnly).isEmpty = false <;>
      simp [hg, installFiniSlots_mem slots cb hp hm]
  · intro hp hm hfree hg
    obtain ⟨res, hr, _, hfm⟩ := installFiniSlots_append slots cb hp hm hfree
    exact ⟨res, by simp [add_ipc_port_fini, hg, hr], hfm⟩
  · intro hg
    simp [add_ipc_port_fini, hg]
  · intro hm hfree hg
    simp [add_ipc_port_fini, hg, installFiniSlots_full slots cb hm hfree]

/-- Witness for C8 amended: with a LISTEN admit, a callback already in the
array is not duplicated, and a fresh callback lands in the first free
slot. -/
theorem C8_add_ipc_port_fini_amended_witness :
    add_ipc_port_fini [some 7, none, none] (some 7) { listen := true } =
      some [some 7, none, none] ∧
    (∃ res, add_ipc_port_fini [some 7, none, none] (some 9)
        { listen := true } = some res ∧
      res.filterMap id = [7, 9]) := by
  constructor
  · exact (C8_add_ipc_port_fini_amended [some 7, none, none] 7
      { listen := true }).2.1 (by decide) (by decide)
  · obtain ⟨res, hr, hfm⟩ := (C8_add_ipc_port_fini_amended
      [some 7, none, none] 9 { listen := true }).2.2.1
      (by decide) (by decide) (by decide) (by decide)
    exact ⟨res, hr, by simpa using hfm⟩

/-- C9 counterexample: the claim asserts that every operation on a closed
(poisoned) eventfd handle fails with the bad-handle error before touching
the descriptor, but `eventfd_pal_read` never checks for the poison value:
on a closed handle with valid arguments it performs host I/O on the
poisoned descriptor and returns whatever the host returns. -/
theorem C9_eventfd_closed_read_counterexample :
    eventfd_pal_read
        { isEventfd := true, fd := PAL_IDX_POISON, nonblocking := false,
          errorFlag := false } 0 8 (fun _ => 8) (fun x => x) =
      (8, [.hread PAL_IDX_POISON]) ∧
    (8 : Int) ≠ -PAL_ERROR_BADHANDLE := by
  constructor
  · rfl
  · decide

/-- C9 amended: `eventfd_pal_close` is idempotent — a second close returns
success, changes nothing and performs no host call — and the attribute
query on a poisoned handle fails with the bad-handle error without host
I/O; but read and write do not guard against the poisoned descriptor: on a
closed eventfd handle with valid arguments they issue host I/O on the
poison value itself. -/
theorem C9_eventfd_close_amended (h : EventfdHandle)
    (fior pr : Int) (rev : Revents) (hostIo : Nat → Int)
    (unixToPal : Int → Int) :
    eventfd_pal_close (eventfd_pal_close h).1 =
      ((eventfd_pal_close h).1, 0, []) ∧
    (h.fd = PAL_IDX_POISON →
      eventfd_pal_attrquerybyhdl h fior pr rev unixToPal =
        (-PAL_ERROR_BADHANDLE, none, [])) ∧
    (h.isEventfd = true → h.fd = PAL_IDX_POISON →
      (eventfd_pal_read h 0 8 hostIo unixToPal).2 =
          [.hread PAL_IDX_POISON] ∧
      (eventfd_pal_write h 0 8 hostIo unixToPal).2 =
          [.hwrite PAL_IDX_POISON]) := by
  refine ⟨?_, ?_, ?_⟩
  · by_cases he : h.isEventfd
    · by_cases hp : h.fd = PAL_IDX_POISON
      · simp [eventfd_pal_close, he, hp]
      · simp [eventfd_pal_close, he, hp]
    · simp [eventfd_pal_close, he]
  · intro hp
    simp [eventfd_pal_attrquerybyhdl, hp]
  · intro he hp
    constructor
    · by_cases hb : hostIo PAL_IDX_POISON < 0 <;>
        simp [eventfd_pal_read, he, hp, hb]
    · by_cases hb : hostIo PAL_IDX_POISON < 0 <;>
        simp [eventfd_pal_write, he, hp, hb]

/-- Witness for C9 amended: closing a live eventfd handle twice: the second
close is a silent no-op; the poisoned handle then answers the attribute
query with bad-handle, while a read on it still reaches the host. -/
theorem C9_eventfd_close_amended_witness :
    eventfd_pal_close (eventfd_pal_close
        { isEventfd := true, fd := 5, nonblocking := false,
          errorFlag := false }).1 =
      ((eventfd_pal_close
        { isEventfd := true, fd := 5, nonblocking := false,
          errorFlag := false }).1, 0, []) ∧
    eventfd_pal_attrquerybyhdl
        { isEventfd := true, fd := PAL_IDX_POISON, nonblocking := false,
          errorFlag := false } 0 0 {} (fun x => x) =
      (-PAL_ERROR_BADHANDLE, none, []) ∧
    (eventfd_pal_read
        { isEventfd := true, fd := PAL_IDX_POISON, nonblocking := false,
          errorFlag := false } 0 8 (fun _ => 0) (fun x => x)).2 =
      [.hread PAL_IDX_POISON] := by
  refine ⟨(C9_eventfd_close_amended
      { isEventfd := true, fd := 5, nonblocking := false,
        errorFlag := false } 0 0 {} (fun _ => 0) (fun x => x)).1,
    (C9_eventfd_close_amended
      { isEventfd := true, fd := PAL_IDX_POISON, nonblocking := false,
        errorFlag := false } 0 0 {} (fun x => x) (fun x => x)).2.1 rfl,
    ((C9_eventfd_close_amended
      { isEventfd := true, fd := PAL_IDX_POISON, nonblocking := false,
        errorFlag := false } 0 0 {} (fun _ => 0) (fun x => x)).2.2
      rfl rfl).1⟩

/-- C10 counterexample: the claim asserts that read fails with the
invalid-argument error whenever the length is below 8 bytes, but the type
check precedes the length check: on a non-eventfd handle with offset 0 and
length 4 the code returns the not-connection error instead. -/
theorem C10_eventfd_read_checks_counterexample :
    eventfd_pal_read
        { isEventfd := false, fd := 3, nonblocking := false,
          errorFlag := false } 0 4 (fun _ => 0) (fun x => x) =
      (-PAL_ERROR_NOTCONNECTION, []) ∧
    (-PAL_ERROR_NOTCONNECTION : Int) ≠ -PAL_ERROR_INVAL := by
  constructor
  · rfl
  · decide

/-- C10 amended: read and write validate their arguments before any host
I/O, in this order: a non-zero offset fails with invalid-argument; then a
handle that is not an eventfd fails with not-connection; then a length
below 8 bytes (`sizeof(uint64_t)`) fails with invalid-argument.  In every
failing case no host call is made. -/
theorem C10_eventfd_rw_checks_amended (h : EventfdHandle)
    (offset len : Nat) (hostIo : Nat → Int) (unixToPal : Int → Int) :
    (offset ≠ 0 →
      eventfd_pal_read h offset len hostIo unixToPal =
          (-PAL_ERROR_INVAL, []) ∧
      eventfd_pal_write h offset len hostIo unixToPal =
          (-PAL_ERROR_INVAL, [])) ∧
    (offset = 0 → h.isEventfd = false →
      eventfd_pal_read h offset len hostIo unixToPal =
          (-PAL_ERROR_NOTCONNECTION, []) ∧
      eventfd_pal_write h offset len hostIo unixToPal =
          (-PAL_ERROR_NOTCONNECTION, [])) ∧
    (offset = 0 → h.isEventfd = true → len < 8 →
      eventfd_pal_read h offset len hostIo unixToPal =
          (-PAL_ERROR_INVAL, []) ∧
      eventfd_pal_write h offset len hostIo unixToPal =
          (-PAL_ERROR_INVAL, [])) := by
  refine ⟨?_, ?_, ?_⟩
  · intro ho
    exact ⟨by simp [eventfd_pal_read, ho], by simp [eventfd_pal_write, ho]⟩
  · intro ho ht
    subst ho
    exact ⟨by simp [eventfd_pal_read, ht], by simp [eventfd_pal_write, ht]⟩
  · intro ho ht hl
    subst ho
    have hl2 : ¬8 ≤ len := by omega
    exact ⟨by simp [eventfd_pal_read, ht, hl, hl2],
      by simp [eventfd_pal_write, ht, hl, hl2]⟩

/-- Witness for C10 amended: concrete failing calls for each of the three
checks. -/
theorem C10_eventfd_rw_checks_amended_witness :
    eventfd_pal_read
        { isEventfd := true, fd := 3, nonblocking := false,
          errorFlag := false } 1 8 (fun _ => 0) (fun x => x) =
      (-PAL_ERROR_INVAL, []) ∧
    eventfd_pal_write
        { isEventfd := false, fd := 3, nonblocking := false,
          errorFlag := false } 0 8 (fun _ => 0) (fun x => x) =
      (-PAL_ERROR_NOTCONNECTION, []) ∧
    eventfd_pal_read
        { isEventfd := true, fd := 3, nonblocking := false,
          errorFlag := false } 0 4 (fun _ => 0) (fun x => x) =
      (-PAL_ERROR_INVAL, []) := by
  refine ⟨((C10_eventfd_rw_checks_amended
      { isEventfd := true, fd := 3, nonblocking := false,
        errorFlag := false } 1 8 (fun _ => 0) (fun x => x)).1
      (by decide)).1,
    ((C10_eventfd_rw_checks_amended
      { isEventfd := false, fd := 3, nonblocking := false,
        errorFlag := false } 0 8 (fun _ => 0) (fun x => x)).2.1
      rfl rfl).2,
    ((C10_eventfd_rw_checks_amended
      { isEventfd := true, fd := 3, nonblocking := false,
        errorFlag := false } 0 4 (fun _ => 0) (fun x => x)).2.2
      rfl rfl (by decide)).1⟩

theorem receive_loop_teardown_code (selfVmid seq : Nat) (wantMsg : Bool)
    (registered : Nat → Bool) (callback respRet : IpcMsg → Int)
    (palErrno : Nat → Int) (events : List StreamEvent) (st : RecvState)
    (c : Int)
    (h : (receive_loop selfVmid seq wantMsg registered callback respRet
      palErrno st events).teardown = some c) :
    c = -ECHILD := by
  induction events generalizing st with
  | nil => simp [receive_loop] at h
  | cons e rest ih =>
      cases e with
      | readFail err =>
          by_cases he : err ≠ 0
          · simp [receive_loop, he] at h
            omega
          · simp [receive_loop, he] at h
      | msg m =>
          rw [receive_loop] at h
          by_cases h1 : (wantMsg && (seq == 0 || m.seq == seq)) = true
          · rw [if_pos h1] at h
            simp at h
          · rw [if_neg h1] at h
            by_cases h2 : (m.src == selfVmid) = true
            · rw [if_pos h2] at h
              exact ih _ h
            · rw [if_neg h2] at h
              by_cases h3 : (registered m.code) = true
              · rw [if_pos h3] at h
                by_cases h4 : (callback m < 0 ∨ callback m = RESPONSE_CALLBACK)
                    ∧ m.seq ≠ 0
                · rw [if_pos h4] at h
                  exact ih _ h
                · rw [if_neg h4] at h
                  exact ih _ h
              · rw [if_neg h3] at h
                exact ih _ h

/-- C1 counterexample: the claim asserts that a zero-length read with a
pending host error tears the port down with code ECONNRESET, but
`receive_ipc_message` calls `del_ipc_port_fini(port, -ECHILD)`: on a stream
whose first read fails with host errno 5 the recorded teardown code is
`-ECHILD`, not `-ECONNRESET`. -/
theorem C1_receive_teardown_counterexample :
    (receive_ipc_message 1 0 false (fun _ => true) (fun _ => 0) (fun _ => 0)
        (fun e => (e : Int)) [.readFail 5]).teardown = some (-ECHILD) ∧
    (receive_ipc_message 1 0 false (fun _ => true) (fun _ => 0) (fun _ => 0)
        (fun e => (e : Int)) [.readFail 5]).teardown ≠
      some (-ECONNRESET) := by
  constructor
  · rfl
  · decide

/-- C1 amended: whenever the read loop of `receive_ipc_message` hits a
zero-length read with a non-transient stream error (non-zero host errno),
the port is torn down via `del_ipc_port_fini` with error code ECHILD —
passed as `-ECHILD`, not ECONNRESET — and the routine returns `-PAL_ERRNO`;
moreover ECHILD is the only teardown code this routine ever produces. -/
theorem C1_receive_teardown_amended (selfVmid seq : Nat) (wantMsg : Bool)
    (registered : Nat → Bool) (callback respRet : IpcMsg → Int)
    (palErrno : Nat → Int) :
    (∀ st rest e, e ≠ 0 →
      receive_loop selfVmid seq wantMsg registered callback respRet palErrno
          st (.readFail e :: rest) =
        { consumed := none, dispatched := st.dispatched,
          responses := st.responses, teardown := some (-ECHILD),
          ret := -(palErrno e) }) ∧
    (∀ events c,
      (receive_ipc_message selfVmid seq wantMsg registered callback respRet
        palErrno events).teardown = some c → c = -ECHILD) := by
  constructor
  · intro st rest e he
    simp [receive_loop, he]
  · intro events c h
    exact receive_loop_teardown_code selfVmid seq wantMsg registered callback
      respRet palErrno events _ c h

/-- Witness for C1 amended: a read loop whose first read fails with host
errno 5 tears the port down with `-ECHILD` and returns the translated
error. -/
theorem C1_receive_teardown_amended_witness :
    receive_loop 1 0 false (fun _ => true) (fun _ => 0) (fun _ => 0)
        (fun e => (e : Int)) { dispatched := [], responses := [], ret := 0 }
        [.readFail 5] =
      { consumed := none, dispatched := [], responses := [],
        teardown := some (-ECHILD), ret := -5 } :=
  (C1_receive_teardown_amended 1 0 false (fun _ => true) (fun _ => 0)
    (fun _ => 0) (fun e => (e : Int))).1
    { dispatched := [], responses := [], ret := 0 } [] 5 (by decide)

theorem receive_loop_dispatched_src (selfVmid seq : Nat) (wantMsg : Bool)
    (registered : Nat → Bool) (callback respRet : IpcMsg → Int)
    (palErrno : Nat → Int) (events : List StreamEvent) (st : RecvState)
    (hst : st.dispatched.all (fun m => m.src != selfVmid) = true) :
    ((receive_loop selfVmid seq wantMsg registered callback respRet palErrno
      st events).dispatched.all (fun m => m.src != selfVmid)) = true := by
  induction events generalizing st with
  | nil => simpa [receive_loop] using hst
  | cons e rest ih =>
      cases e with
      | readFail err =>
          by_cases he : err ≠ 0 <;> simpa [receive_loop, he] using hst
      | msg m =>
          rw [receive_loop]
          by_cases h1 : (wantMsg && (seq == 0 || m.seq == seq)) = true
          · rw [if_pos h1]
            simpa using hst
          · rw [if_neg h1]
            by_cases h2 : (m.src == selfVmid) = true
            · rw [if_pos h2]
              exact ih _ hst
            · rw [if_neg h2]
              have hm : (m.src != selfVmid) = true := by
                simpa using h2
              by_cases h3 : (registered m.code) = true
              · rw [if_pos h3]
                by_cases h4 : (callback m < 0 ∨ callback m = RESPONSE_CALLBACK)
                    ∧ m.seq ≠ 0
                · rw [if_pos h4]
                  refine ih _ ?_
                  simp only [List.all_append, List.all_cons, List.all_nil]
                  simp [hm]
                  intro x hx
                  simpa using List.all_eq_true.mp hst x hx
                · rw [if_neg h4]
                  refine ih _ ?_
                  simp only [List.all_append, List.all_cons, List.all_nil]
                  simp [hm]
                  intro x hx
                  simpa using List.all_eq_true.mp hst x hx
              · rw [if_neg h3]
                exact ih _ hst

/-- C3: in the receive routine, a message whose `src` equals the current
process id and which is not consumed by the caller's sequence match is
dropped — processing the remaining stream exactly as if the message were
absent — and no registered callback is ever dispatched for a self-originated
message. -/
theorem C3_no_self_dispatch (selfVmid seq : Nat) (wantMsg : Bool)
    (registered : Nat → Bool) (callback respRet : IpcMsg → Int)
    (palErrno : Nat → Int) (events : List StreamEvent) :
    (((receive_ipc_message selfVmid seq wantMsg registered callback respRet
        palErrno events).dispatched.all (fun m => m.src != selfVmid)) =
      true) ∧
    (∀ st m rest, (wantMsg && (seq == 0 || m.seq == seq)) = false →
      m.src = selfVmid →
      receive_loop selfVmid seq wantMsg registered callback respRet palErrno
          st (.msg m :: rest) =
        receive_loop selfVmid seq wantMsg registered callback respRet
          palErrno st rest) := by
  constructor
  · exact receive_loop_dispatched_src selfVmid seq wantMsg registered
      callback respRet palErrno events _ (by simp)
  · intro st m rest h1 h2
    rw [receive_loop]
    rw [if_neg (by simp [h1]), if_pos (by simp [h2])]

/-- Witness for C3: with `self_process_id = 1` and no caller match, a
self-originated FINDURI message is dropped and nothing is dispatched. -/
theorem C3_no_self_dispatch_witness :
    ((receive_ipc_message 1 0 false (fun _ => true) (fun _ => 0)
        (fun _ => 0) (fun e => (e : Int))
        [.msg { code := 1, size := 32, src := 1, dst := 2, seq := 0 }]
      ).dispatched.all (fun m => m.src != 1)) = true ∧
    receive_loop 1 0 false (fun _ => true) (fun _ => 0) (fun _ => 0)
        (fun e => (e : Int)) { dispatched := [], responses := [], ret := 0 }
        [.msg { code := 1, size := 32, src := 1, dst := 2, seq := 0 }] =
      receive_loop 1 0 false (fun _ => true) (fun _ => 0) (fun _ => 0)
        (fun e => (e : Int)) { dispatched := [], responses := [], ret := 0 }
        [] := by
  constructor
  · exact (C3_no_self_dispatch 1 0 false (fun _ => true) (fun _ => 0)
      (fun _ => 0) (fun e => (e : Int))
      [.msg { code := 1, size := 32, src := 1, dst := 2, seq := 0 }]).1
  · exact (C3_no_self_dispatch 1 0 false (fun _ => true) (fun _ => 0)
      (fun _ => 0) (fun e => (e : Int)) []).2
      { dispatched := [], responses := [], ret := 0 }
      { code := 1, size := 32, src := 1, dst := 2, seq := 0 } []
      (by decide) rfl

/-- The set of roles `__del_ipc_port` clears: `type & port->info.type`, or
all of the port's roles when the given mask is zero
(shim_ipc_helper.c:387). -/
def evictCleared (port : PortState) (mask : RoleMask) : RoleMask :=
  if mask.isEmpty then port.type else mask.inter port.type

/-- The role bits that keep the port alive through an evict: those outside
the cleared set, IFPOLL and KEEPALIVE (shim_ipc_helper.c:394). -/
def evictKeeps (port : PortState) (mask : RoleMask) : RoleMask :=
  port.type.diff (((evictCleared port mask).union .ifpollOnly).union
    .keepaliveOnly)

/-- C6 counterexample: the claim asserts that a helper update is requested
exactly when KEEPALIVE status flipped or IFPOLL was among the cleared roles
of a removed port.  Evicting LISTEN from a port with roles LISTEN and
IFPOLL removes the port (no other role survives outside IFPOLL and
KEEPALIVE): the cleared set is only LISTEN — IFPOLL is not among it — and
KEEPALIVE is clear before and after, yet the code requests a helper update
(`need_restart` is true because the port held IFPOLL). -/
theorem C6_del_ipc_port_counterexample :
    (del_ipc_port_core
        { type := { listen := true, ifpoll := true }, inList := true,
          hashed := true, update := false, refCount := 3 }
        { listen := true }).2 = true ∧
    (evictCleared
        { type := { listen := true, ifpoll := true }, inList := true,
          hashed := true, update := false, refCount := 3 }
        { listen := true }).ifpoll = false ∧
    (del_ipc_port_core
        { type := { listen := true, ifpoll := true }, inList := true,
          hashed := true, update := false, refCount := 3 }
        { listen := true }).1.type.keepalive =
      ({ listen := true, ifpoll := true } : RoleMask).keepalive := by
  decide

/-- C6 amended: `__del_ipc_port` computes the cleared set as
`role_mask ∩ port.role_mask` (all roles when the mask is zero).  If any
role bit outside cleared ∪ {IFPOLL, KEEPALIVE} remains, it only clears the
cleared bits and marks the port dirty, leaving both registry memberships
and the reference count intact, and requests a helper update exactly when
the cleared set's KEEPALIVE bit differs from the port's.  Otherwise it
removes the port from the insertion list (reducing its roles to at most
IFPOLL) and from the peer index, releasing one reference per membership it
actually held, marks it dirty, and requests a helper update exactly when
the KEEPALIVE bits differ or the port held IFPOLL. -/
theorem C6_del_ipc_port_amended (port : PortState) (mask : RoleMask) :
    ((evictKeeps port mask).isEmpty = false →
      del_ipc_port_core port mask =
        ({ port with
            type := port.type.diff (evictCleared port mask)
            update := true },
          (evictCleared port mask).keepalive != port.type.keepalive)) ∧
    ((evictKeeps port mask).isEmpty = true →
      (del_ipc_port_core port mask).1.inList = false ∧
      (del_ipc_port_core port mask).1.hashed = false ∧
      (del_ipc_port_core port mask).1.update = true ∧
      (del_ipc_port_core port mask).1.refCount =
        port.refCount - ((if port.inList then 1 else 0) +
          (if port.hashed then 1 else 0)) ∧
      (del_ipc_port_core port mask).1.type =
        (if port.inList then port.type.inter .ifpollOnly else port.type) ∧
      (del_ipc_port_core port mask).2 =
        (((evictCleared port mask).keepalive != port.type.keepalive) ||
          port.type.ifpoll)) := by
  constructor
  · intro h
    have h2 : (evictKeeps port mask).isEmpty = false := h
    unfold evictKeeps evictCleared at h2
    simp only [del_ipc_port_core, h2, if_pos]
    rfl
  · intro h
    have h2 : (evictKeeps port mask).isEmpty = true := h
    unfold evictKeeps evictCleared at h2
    have h3 : ¬((port.type.diff
        ((((if mask.isEmpty then port.type else mask.inter port.type).union
          RoleMask.ifpollOnly)).union RoleMask.keepaliveOnly)).isEmpty
        = false) := by
      simp [h2]
    by_cases hl : port.inList <;> by_cases hh : port.hashed <;>
      (simp [del_ipc_port_core, h3, hl, hh, evictCleared]; try omega)

/-- Witness for C6 amended: evicting the DIRPRT role from a port that also
listens keeps the port registered with DIRPRT cleared; evicting everything
(mask zero) from a listening IFPOLL port removes it from both collections,
releases both references and requests a helper update. -/
theorem C6_del_ipc_port_amended_witness :
    del_ipc_port_core
        { type := { listen := true, dirprt := true }, inList := true,
          hashed := true, update := false, refCount := 3 }
        { dirprt := true } =
      ({ type := { listen := true }, inList := true, hashed := true,
          update := true, refCount := 3 }, false) ∧
    (del_ipc_port_core
        { type := { listen := true, ifpoll := true }, inList := true,
          hashed := true, update := false, refCount := 3 }
        RoleMask.empty).1.refCount = 1 ∧
    (del_ipc_port_core
        { type := { listen := true, ifpoll := true }, inList := true,
          hashed := true, update := false, refCount := 3 }
        RoleMask.empty).2 = true := by
  refine ⟨?_, ?_, ?_⟩
  · have := (C6_del_ipc_port_amended
        { type := { listen := true, dirprt := true }, inList := true,
          hashed := true, update := false, refCount := 3 }
        { dirprt := true }).1 (by decide)
    rw [this]
    decide
  · have := ((C6_del_ipc_port_amended
        { type := { listen := true, ifpoll := true }, inList := true,
          hashed := true, update := false, refCount := 3 }
        RoleMask.empty).2 (by decide)).2.2.2.1
    rw [this]
    decide
  · have := ((C6_del_ipc_port_amended
        { type := { listen := true, ifpoll := true }, inList := true,
          hashed := true, update := false, refCount := 3 }
        RoleMask.empty).2 (by decide)).2.2.2.2.2
    rw [this]
    decide

theorem RoleMask.inter_isEmpty_right (a b : RoleMask)
    (h : b.isEmpty = true) : (a.inter b).isEmpty = true := by
  obtain ⟨a1, a2, a3, a4, a5, a6, a7⟩ := a
  obtain ⟨b1, b2, b3, b4, b5, b6, b7⟩ := b
  simp only [RoleMask.isEmpty, RoleMask.inter, Bool.and_eq_true,
    Bool.not_eq_true'] at h ⊢
  obtain ⟨⟨⟨⟨⟨⟨h1, h2⟩, h3⟩, h4⟩, h5⟩, h6⟩, h7⟩ := h
  subst h1 h2 h3 h4 h5 h6 h7
  simp

theorem broadcastLoop_not_excluded (ports : List BcastPort)
    (exclude : List Nat) (targetType : RoleMask) (x : Nat × Nat)
    (hx : x ∈ broadcastLoop ports exclude targetType) :
    exclude.contains x.1 = false := by
  induction ports with
  | nil => simp [broadcastLoop] at hx
  | cons p rest ih =>
      rw [broadcastLoop] at hx
      by_cases h1 : ((p.type.inter targetType).isEmpty = false)
      · rw [if_pos h1] at hx
        by_cases h2 : (exclude ≠ [] && exclude.contains p.pid) = true
        · rw [if_pos h2] at hx
          exact ih hx
        · rw [if_neg h2] at hx
          rcases List.mem_cons.mp hx with h3 | h3
          · subst h3
            by_cases h5 : exclude = []
            · simp [h5]
            · simp only [Bool.and_eq_true, decide_eq_true_eq, not_and]
                at h2
              simpa using h2 h5
          · exact ih h3
      · rw [if_neg h1] at hx
        exact ih hx

theorem broadcastLoop_pid_mem (ports : List BcastPort) (exclude : List Nat)
    (targetType : RoleMask) (x : Nat × Nat)
    (hx : x ∈ broadcastLoop ports exclude targetType) :
    x.1 ∈ ports.map (fun p => p.pid) := by
  induction ports with
  | nil => simp [broadcastLoop] at hx
  | cons p rest ih =>
      rw [broadcastLoop] at hx
      by_cases h1 : ((p.type.inter targetType).isEmpty = false)
      · rw [if_pos h1] at hx
        by_cases h2 : (exclude ≠ [] && exclude.contains p.pid) = true
        · rw [if_pos h2] at hx
          simp [ih hx]
        · rw [if_neg h2] at hx
          rcases List.mem_cons.mp hx with h3 | h3
          · subst h3
            simp
          · simp [ih h3]
      · rw [if_neg h1] at hx
        simp [ih hx]

theorem broadcastLoop_once (ports : List BcastPort) (exclude : List Nat)
    (targetType : RoleMask) (p : BcastPort)
    (hnd : (ports.map (fun q => q.pid)).Nodup) (hp : p ∈ ports)
    (hmatch : (p.type.inter targetType).isEmpty = false)
    (hexc : exclude.contains p.pid = false) :
    (broadcastLoop ports exclude targetType).filter
      (fun x => x.1 == p.pid) = [(p.pid, p.vmid)] := by
  induction ports with
  | nil => simp at hp
  | cons q rest ih =>
      have hnd2 : (rest.map (fun r => r.pid)).Nodup :=
        (List.nodup_cons.mp hnd).2
      have hqn : q.pid ∉ rest.map (fun r => r.pid) :=
        (List.nodup_cons.mp hnd).1
      rw [broadcastLoop]
      rcases List.mem_cons.mp hp with hq | hq
      · subst hq
        rw [if_pos hmatch]
        have hg : (decide (exclude ≠ []) && exclude.contains p.pid)
            = false := by
          rw [hexc, Bool.and_false]
        rw [if_neg (by rw [hg]; simp)]
        have hrest : (broadcastLoop rest exclude targetType).filter
            (fun x => x.1 == p.pid) = [] := by
          rw [List.filter_eq_nil_iff]
          intro x hx
          have := broadcastLoop_pid_mem rest exclude targetType x hx
          simp only [beq_iff_eq]
          intro hcontra
          rw [hcontra] at this
          exact hqn this
        simp [hrest]
      · have hne : q.pid ≠ p.pid := by
          intro h
          rw [h] at hqn
          exact hqn (List.mem_map.mpr ⟨p, hq, rfl⟩)
        by_cases h1 : ((q.type.inter targetType).isEmpty = false)
        · rw [if_pos h1]
          by_cases h2 : (exclude ≠ [] && exclude.contains q.pid) = true
          · rw [if_pos h2]
            exact ih hnd2 hq
          · rw [if_neg h2]
            rw [List.filter_cons_of_neg (by simpa using hne)]
            exact ih hnd2 hq
        · rw [if_neg h1]
          exact ih hnd2 hq

/-- C2: `broadcast_ipc` never sends to a port contained in the exclusion
list; every port of the insertion list whose role mask intersects the target
mask and which is not excluded receives the message exactly once with its
`dst` field set to that port's peer id (given the registry invariant that
insertion-list entries are distinct); and the per-recipient send results do
not influence a fan-out broadcast — a failure on one recipient never aborts
the remaining sends. -/
theorem C2_broadcast_ipc (msgDst : Nat) (exclude : List Nat)
    (targetType : RoleMask) (bport : Option Nat) (ports : List BcastPort)
    (sendResult : Nat → Int) :
    (∀ pidx ∈ exclude,
      ∀ x ∈ (broadcast_ipc msgDst exclude targetType bport ports
        sendResult).sends, x.1 ≠ pidx) ∧
    ((ports.map (fun q => q.pid)).Nodup → ∀ p ∈ ports,
      (p.type.inter targetType).isEmpty = false →
      exclude.contains p.pid = false →
      (broadcast_ipc msgDst exclude targetType bport ports
          sendResult).sends.filter (fun x => x.1 == p.pid) =
        [(p.pid, p.vmid)]) ∧
    (targetType.isEmpty = false → ∀ g,
      broadcast_ipc msgDst exclude targetType bport ports sendResult =
        broadcast_ipc msgDst exclude targetType bport ports g) := by
  have hmain : ∀ x ∈ (broadcast_ipc msgDst exclude targetType bport ports
      sendResult).sends, exclude.contains x.1 = false := by
    intro x hx
    unfold broadcast_ipc at hx
    rcases bport with _ | bpid
    · exact broadcastLoop_not_excluded ports exclude targetType x hx
    · simp only at hx
      by_cases hbe : targetType.isEmpty = true
      · rw [if_pos hbe] at hx
        by_cases h1 : exclude.contains bpid = true
        · rw [if_pos h1] at hx
          simp at hx
        · rw [if_neg h1] at hx
          by_cases h2 : sendResult bpid = 0
          · rw [if_pos h2] at hx
            simp only [List.mem_singleton] at hx
            subst hx
            simpa using h1
          · rw [if_neg h2] at hx
            simp only [List.mem_cons] at hx
            rcases hx with hx | hx
            · subst hx
              simpa using h1
            · exact broadcastLoop_not_excluded ports exclude targetType x hx
      · rw [if_neg hbe] at hx
        exact broadcastLoop_not_excluded ports exclude targetType x hx
  refine ⟨?_, ?_, ?_⟩
  · intro pidx hpidx x hx hcontra
    subst hcontra
    have h2 : exclude.contains x.1 = true := List.elem_eq_true_of_mem hpidx
    rw [hmain x hx] at h2
    cases h2
  · intro hnd p hp hmatch hexc
    have hte : targetType.isEmpty = false := by
      by_contra h
      rw [Bool.not_eq_false] at h
      rw [RoleMask.inter_isEmpty_right p.type targetType h] at hmatch
      cases hmatch
    have hred : (broadcast_ipc msgDst exclude targetType bport ports
        sendResult).sends = broadcastLoop ports exclude targetType := by
      unfold broadcast_ipc
      cases bport <;> simp [hte]
    rw [hred]
    exact broadcastLoop_once ports exclude targetType p hnd hp hmatch hexc
  · intro hte g
    unfold broadcast_ipc
    cases bport <;> simp [hte]

/-- Witness for C2: broadcasting to DIRPRT ports with port 2 excluded
delivers exactly once to port 1 with `dst = 10`, and any send to the
excluded port identity 2 is ruled out. -/
theorem C2_broadcast_ipc_witness :
    (broadcast_ipc 0 [2] { dirprt := true } none
        [{ pid := 1, vmid := 10, type := { dirprt := true } },
         { pid := 2, vmid := 20, type := { dirprt := true } },
         { pid := 3, vmid := 30, type := { listen := true } }]
        (fun _ => 0)).sends.filter (fun x => x.1 == 1) = [(1, 10)] ∧
    ((1 : Nat), (10 : Nat)).1 ≠ 2 := by
  constructor
  · exact (C2_broadcast_ipc 0 [2] { dirprt := true } none
      [{ pid := 1, vmid := 10, type := { dirprt := true } },
       { pid := 2, vmid := 20, type := { dirprt := true } },
       { pid := 3, vmid := 30, type := { listen := true } }]
      (fun _ => 0)).2.1 (by decide)
      { pid := 1, vmid := 10, type := { dirprt := true } } (by decide)
      (by decide) (by decide)
  · exact (C2_broadcast_ipc 0 [2] { dirprt := true } none
      [{ pid := 1, vmid := 10, type := { dirprt := true } },
       { pid := 2, vmid := 20, type := { dirprt := true } },
       { pid := 3, vmid := 30, type := { listen := true } }]
      (fun _ => 0)).1 2 (by decide) (1, 10) (by decide)

theorem getD_set_true_self (l : List Bool) (j : Nat) (h : j < l.length) :
    (l.set j true).getD j false = true := by
  induction l generalizing j with
  | nil => simp at h
  | cons x xs ih =>
      cases j with
      | zero => simp
      | succ j =>
          simp only [List.set, List.getD_cons_succ]
          exact ih j (by simpa using h)

theorem getD_set_true_mono (l : List Bool) (i j : Nat)
    (h : l.getD j false = true) : (l.set i true).getD j false = true := by
  induction l generalizing i j with
  | nil => simp at h
  | cons x xs ih =>
      cases i with
      | zero =>
          cases j with
          | zero => simp
          | succ j => simpa using h
      | succ i =>
          cases j with
          | zero => simpa using h
          | succ j =>
              simp only [List.set, List.getD_cons_succ] at h ⊢
              exact ih i j h

theorem setSlotFlags_rfd (h : FdHandle) (j : Nat) (sw se : Bool) :
    (setSlotFlags h j sw se).rfd = h.rfd := rfl

theorem setSlotFlags_wfd (h : FdHandle) (j : Nat) (sw se : Bool) :
    (setSlotFlags h j sw se).wfd = h.wfd := rfl

theorem setSlotFlags_fds (h : FdHandle) (j : Nat) (sw se : Bool) :
    (setSlotFlags h j sw se).fds = h.fds := rfl

theorem setSlotFlags_errorFlags_length (h : FdHandle) (j : Nat)
    (sw se : Bool) :
    (setSlotFlags h j sw se).errorFlags.length = h.errorFlags.length := by
  unfold setSlotFlags
  cases se <;> simp

theorem setSlotFlags_errorFlags_mono (h : FdHandle) (j : Nat) (sw se : Bool)
    (k : Nat) (hk : h.errorFlags.getD k false = true) :
    (setSlotFlags h j sw se).errorFlags.getD k false = true := by
  unfold setSlotFlags
  cases se
  · simpa using hk
  · simpa using getD_set_true_mono h.errorFlags j k hk

theorem storeSet_setSlot_fields (store : HandleStore) (hid j : Nat)
    (sw se : Bool) (x : Nat) :
    ((storeSet store hid (setSlotFlags (store hid) j sw se)) x).rfd =
      (store x).rfd ∧
    ((storeSet store hid (setSlotFlags (store hid) j sw se)) x).wfd =
      (store x).wfd ∧
    ((storeSet store hid (setSlotFlags (store hid) j sw se)) x).fds =
      (store x).fds ∧
    ((storeSet store hid
      (setSlotFlags (store hid) j sw se)) x).errorFlags.length =
      (store x).errorFlags.length := by
  unfold storeSet
  by_cases hx : x = hid
  · subst hx
    simp [setSlotFlags_rfd, setSlotFlags_wfd, setSlotFlags_fds,
      setSlotFlags_errorFlags_length]
  · simp [hx]

theorem applyRevents_fields (l : List ((Nat × Nat) × Revents))
    (store : HandleStore) (polled : Option Nat) (x : Nat) :
    ((applyRevents store polled l).1 x).rfd = (store x).rfd ∧
    ((applyRevents store polled l).1 x).wfd = (store x).wfd ∧
    ((applyRevents store polled l).1 x).fds = (store x).fds ∧
    ((applyRevents store polled l).1 x).errorFlags.length =
      (store x).errorFlags.length := by
  induction l generalizing store polled with
  | nil => exact ⟨rfl, rfl, rfl, rfl⟩
  | cons e rest ih =>
      obtain ⟨⟨fd, hid⟩, rev⟩ := e
      rw [applyRevents]
      by_cases hz : rev.isZero = true
      · rw [if_pos hz]
        exact ih store polled
      · rw [if_neg hz]
        by_cases hp : polled.getD hid ≠ hid
        · rw [if_pos hp]
          exact ih store polled
        · rw [if_neg hp]
          cases hfs : findSlot (store hid) fd with
          | none => exact ih store (some hid)
          | some j =>
              have hstep := storeSet_setSlot_fields store hid j rev.pollout
                (rev.pollhup || rev.pollerr) x
              have hrec := ih (storeSet store hid
                (setSlotFlags (store hid) j rev.pollout
                  (rev.pollhup || rev.pollerr))) (some hid)
              exact ⟨hrec.1.trans hstep.1, hrec.2.1.trans hstep.2.1,
                hrec.2.2.1.trans hstep.2.2.1,
                hrec.2.2.2.trans hstep.2.2.2⟩

theorem applyRevents_polled_some (l : List ((Nat × Nat) × Revents))
    (store : HandleStore) (ph : Nat) :
    (applyRevents store (some ph) l).2 = some ph := by
  induction l generalizing store with
  | nil => rfl
  | cons e rest ih =>
      obtain ⟨⟨fd, hid⟩, rev⟩ := e
      rw [applyRevents]
      by_cases hz : rev.isZero = true
      · rw [if_pos hz]
        exact ih store
      · rw [if_neg hz]
        by_cases hp : (some ph : Option Nat).getD hid ≠ hid
        · rw [if_pos hp]
          exact ih store
        · rw [if_neg hp]
          have hph : ph = hid := by simpa using hp
          subst hph
          cases hfs : findSlot (store ph) fd with
          | none => exact ih store
          | some j => exact ih _

theorem applyRevents_error_mono (l : List ((Nat × Nat) × Revents))
    (store : HandleStore) (polled : Option Nat) (x k : Nat)
    (hk : (store x).errorFlags.getD k false = true) :
    (((applyRevents store polled l).1 x).errorFlags.getD k false) = true := by
  induction l generalizing store polled with
  | nil => exact hk
  | cons e rest ih =>
      obtain ⟨⟨fd, hid⟩, rev⟩ := e
      rw [applyRevents]
      by_cases hz : rev.isZero = true
      · rw [if_pos hz]
        exact ih store polled hk
      · rw [if_neg hz]
        by_cases hp : polled.getD hid ≠ hid
        · rw [if_pos hp]
          exact ih store polled hk
        · rw [if_neg hp]
          cases hfs : findSlot (store hid) fd with
          | none => exact ih store (some hid) hk
          | some j =>
              refine ih _ (some hid) ?_
              unfold storeSet
              by_cases hx : x = hid
              · subst hx
                simp only [if_pos rfl]
                exact setSlotFlags_errorFlags_mono (store x) j rev.pollout
                  (rev.pollhup || rev.pollerr) k hk
              · simpa [hx] using hk

theorem applyRevents_isSome (l : List ((Nat × Nat) × Revents))
    (store : HandleStore) (polled : Option Nat)
    (hw : ∃ e ∈ l, e.2.isZero = false) :
    (applyRevents store polled l).2.isSome = true := by
  induction l generalizing store polled with
  | nil => simp at hw
  | cons e rest ih =>
      obtain ⟨⟨fd, hid⟩, rev⟩ := e
      rw [applyRevents]
      by_cases hz : rev.isZero = true
      · rw [if_pos hz]
        refine ih store polled ?_
        obtain ⟨w, hw1, hw2⟩ := hw
        rcases List.mem_cons.mp hw1 with h1 | h1
        · subst h1
          rw [hz] at hw2
          cases hw2
        · exact ⟨w, h1, hw2⟩
      · rw [if_neg hz]
        by_cases hp : polled.getD hid ≠ hid
        · rw [if_pos hp]
          have : ∃ ph, polled = some ph := by
            cases polled with
            | none => simp at hp
            | some ph => exact ⟨ph, rfl⟩
          obtain ⟨ph, rfl⟩ := this
          rw [applyRevents_polled_some]
          rfl
        · rw [if_neg hp]
          cases hfs : findSlot (store hid) fd with
          | none =>
              rw [applyRevents_polled_some]
              rfl
          | some j =>
              rw [applyRevents_polled_some]
              rfl

theorem findSlot_stable (l : List ((Nat × Nat) × Revents))
    (store : HandleStore) (polled : Option Nat) (x fd : Nat) :
    findSlot ((applyRevents store polled l).1 x) fd =
      findSlot (store x) fd := by
  have h := applyRevents_fields l store polled x
  unfold findSlot
  rw [h.1, h.2.1, h.2.2.1]

theorem findSlot_storeSet (store : HandleStore) (hid j : Nat) (sw se : Bool)
    (x fd : Nat) :
    findSlot ((storeSet store hid (setSlotFlags (store hid) j sw se)) x) fd =
      findSlot (store x) fd := by
  have h := storeSet_setSlot_fields store hid j sw se x
  unfold findSlot
  rw [h.1, h.2.1, h.2.2.1]

/-- The central flag-recording property of the revents-application loop:
an entry of the handle that ends up polled, whose revents are non-zero and
contain `POLLHUP` or `POLLERR`, and whose fd maps to slot `j`, leaves the
`ERROR` bit of slot `j` set in the final store. -/
theorem applyRevents_records_error (l : List ((Nat × Nat) × Revents))
    (hid fd j : Nat) (rev : Revents)
    (hmem : ((fd, hid), rev) ∈ l)
    (hz : rev.isZero = false)
    (he : (rev.pollhup || rev.pollerr) = true)
    (store : HandleStore) (polled : Option Nat)
    (hfs : findSlot (store hid) fd = some j)
    (hlen : j < (store hid).errorFlags.length)
    (hfin : (applyRevents store polled l).2 = some hid)
    (hpol : polled = none ∨ polled = some hid) :
    (((applyRevents store polled l).1 hid).errorFlags.getD j false)
      = true := by
  induction l generalizing store polled with
  | nil => simp at hmem
  | cons e rest ih =>
      obtain ⟨⟨fd', hid'⟩, rev'⟩ := e
      rw [applyRevents] at hfin ⊢
      by_cases hz' : rev'.isZero = true
      · rw [if_pos hz'] at hfin ⊢
        rcases List.mem_cons.mp hmem with h1 | h1
        · injection h1 with hpair hrev
          rw [← hrev] at hz'
          rw [hz'] at hz
          simp at hz
        · exact ih h1 store polled hfs hlen hfin hpol
      · rw [if_neg hz'] at hfin ⊢
        by_cases hp : polled.getD hid' ≠ hid'
        · rw [if_pos hp] at hfin ⊢
          have hps : polled = some hid := by
            rcases hpol with h | h
            · subst h
              simp at hp
            · exact h
          subst hps
          have hne : hid' ≠ hid := by
            intro h
            subst h
            simp at hp
          rcases List.mem_cons.mp hmem with h1 | h1
          · injection h1 with hpair hrev
            injection hpair with hfd hhid
            exact absurd hhid.symm hne
          · exact ih h1 store (some hid) hfs hlen hfin (Or.inr rfl)
        · rw [if_neg hp] at hfin ⊢
          rcases List.mem_cons.mp hmem with h1 | h1
          · injection h1 with hpair hrev
            injection hpair with hfd hhid
            subst hfd
            subst hhid
            subst hrev
            rw [hfs] at hfin ⊢
            refine applyRevents_error_mono rest _ (some hid) hid j ?_
            unfold storeSet
            simp only [if_pos rfl]
            unfold setSlotFlags
            rw [he]
            simpa using getD_set_true_self _ j hlen
          · have hhid : hid' = hid := by
              cases hfsx : findSlot (store hid') fd' with
              | none =>
                  rw [hfsx] at hfin
                  rw [applyRevents_polled_some] at hfin
                  exact Option.some.inj hfin
              | some k =>
                  rw [hfsx] at hfin
                  rw [applyRevents_polled_some] at hfin
                  exact Option.some.inj hfin
            cases hfsx : findSlot (store hid') fd' with
            | none =>
                rw [hfsx] at hfin
                exact ih h1 store (some hid') hfs hlen hfin
                  (Or.inr (congrArg some hhid))
            | some k =>
                rw [hfsx] at hfin
                refine ih h1 _ (some hid') ?_ ?_ hfin
                  (Or.inr (congrArg some hhid))
                · rw [findSlot_storeSet]
                  exact hfs
                · rw [(storeSet_setSlot_fields store hid' k rev'.pollout
                    (rev'.pollhup || rev'.pollerr) hid).2.2.2]
                  exact hlen

theorem applyWaitOne_error_mono (l : List ((Nat × Nat) × Revents))
    (h : FdHandle) (k : Nat) (hk : h.errorFlags.getD k false = true) :
    (applyWaitOneRevents h l).errorFlags.getD k false = true := by
  induction l generalizing h with
  | nil => exact hk
  | cons e rest ih =>
      obtain ⟨⟨fd, j⟩, rev⟩ := e
      rw [applyWaitOneRevents]
      by_cases hz : rev.isZero = true
      · rw [if_pos hz]
        exact ih h hk
      · rw [if_neg hz]
        exact ih _ (setSlotFlags_errorFlags_mono h j rev.pollout
          (rev.pollhup || rev.pollerr) k hk)

theorem applyWaitOne_records_error (l : List ((Nat × Nat) × Revents))
    (fd j : Nat) (rev : Revents)
    (hmem : ((fd, j), rev) ∈ l)
    (hz : rev.isZero = false)
    (he : (rev.pollhup || rev.pollerr) = true)
    (h : FdHandle) (hlen : j < h.errorFlags.length) :
    (applyWaitOneRevents h l).errorFlags.getD j false = true := by
  induction l generalizing h with
  | nil => simp at hmem
  | cons e rest ih =>
      obtain ⟨⟨fd', j'⟩, rev'⟩ := e
      rw [applyWaitOneRevents]
      by_cases hz' : rev'.isZero = true
      · rw [if_pos hz']
        rcases List.mem_cons.mp hmem with h1 | h1
        · injection h1 with hpair hrev
          rw [← hrev] at hz'
          rw [hz'] at hz
          simp at hz
        · exact ih h1 h hlen
      · rw [if_neg hz']
        rcases List.mem_cons.mp hmem with h1 | h1
        · injection h1 with hpair hrev
          injection hpair with hfd hj
          subst hj
          subst hrev
          refine applyWaitOne_error_mono rest _ j ?_
          unfold setSlotFlags
          rw [he]
          simpa using getD_set_true_self _ j hlen
        · refine ih h1 _ ?_
          rw [setSlotFlags_errorFlags_length]
          exact hlen

theorem zipRevents_countP_ne_zero {entries : List (Nat × Nat)}
    {revs : List Revents}
    (hc : (zipRevents entries revs).countP (fun x => !x.2.isZero) ≠ 0) :
    entries ≠ [] ∧
    ∃ e ∈ zipRevents entries revs, e.2.isZero = false := by
  constructor
  · intro h
    subst h
    simp [zipRevents] at hc
  · have hpos : 0 < (zipRevents entries revs).countP
        (fun x => !x.2.isZero) := Nat.pos_of_ne_zero hc
    obtain ⟨e, he1, he2⟩ := List.countP_pos_iff.mp hpos
    exact ⟨e, he1, by simpa using he2⟩

theorem dkObjectsWaitAny_multi (store : HandleStore) (a b : Option Nat)
    (rest : List (Option Nat)) (outcome : PollOutcome)
    (opsWaitRes : Option Int) (unixToPal : Nat → Int) :
    dkObjectsWaitAny store (a :: b :: rest) outcome opsWaitRes unixToPal =
      dkObjectsWaitAnyMulti store (a :: b :: rest) outcome unixToPal := by
  cases a <;> rfl

/-- C7: the multi-wait primitive `_DkObjectsWaitAny` returns the try-again
indicator when no file descriptor is eligible for polling and when the poll
comes back with no ready descriptor; it returns the interrupted indicator
when the poll is interrupted by a signal (EINTR/ERESTART); and a
POLLHUP/POLLERR result is recorded as the per-slot `ERROR` flag on the
corresponding handle while the wait itself succeeds.  The first group of
conjuncts covers the multi-handle path (at least two array entries, all
fd-backed), the second the single-handle path through
`_DkObjectWaitOne`. -/
theorem C7_dk_objects_wait_any (store : HandleStore) (a b : Option Nat)
    (rest : List (Option Nat)) (outcome : PollOutcome)
    (opsWaitRes : Option Int) (unixToPal : Nat → Int) (hid : Nat) :
    ((a :: b :: rest).any (fun o => match o with
        | some x => !(store x).hasFds
        | none => false) = false →
      (buildPollList store (a :: b :: rest) [] = [] →
        (dkObjectsWaitAny store (a :: b :: rest) outcome opsWaitRes
          unixToPal).ret = -PAL_ERROR_TRYAGAIN) ∧
      (buildPollList store (a :: b :: rest) [] ≠ [] →
        ∀ e, outcome = .fail e → (e = EINTR ∨ e = ERESTART) →
        (dkObjectsWaitAny store (a :: b :: rest) outcome opsWaitRes
          unixToPal).ret = -PAL_ERROR_INTERRUPTED) ∧
      (∀ revs, outcome = .ready revs →
        (zipRevents (buildPollList store (a :: b :: rest) []) revs).countP
          (fun x => !x.2.isZero) = 0 →
        buildPollList store (a :: b :: rest) [] ≠ [] →
        (dkObjectsWaitAny store (a :: b :: rest) outcome opsWaitRes
          unixToPal).ret = -PAL_ERROR_TRYAGAIN) ∧
      (∀ revs, outcome = .ready revs →
        (zipRevents (buildPollList store (a :: b :: rest) []) revs).countP
          (fun x => !x.2.isZero) ≠ 0 →
        (dkObjectsWaitAny store (a :: b :: rest) outcome opsWaitRes
          unixToPal).ret = 0 ∧
        (dkObjectsWaitAny store (a :: b :: rest) outcome opsWaitRes
          unixToPal).polled.isSome = true ∧
        (∀ fd hid2 rev j,
          ((fd, hid2), rev) ∈
            zipRevents (buildPollList store (a :: b :: rest) []) revs →
          rev.isZero = false →
          (dkObjectsWaitAny store (a :: b :: rest) outcome opsWaitRes
            unixToPal).polled = some hid2 →
          (rev.pollhup || rev.pollerr) = true →
          findSlot (store hid2) fd = some j →
          j < (store hid2).errorFlags.length →
          (((dkObjectsWaitAny store (a :: b :: rest) outcome opsWaitRes
            unixToPal).store hid2).errorFlags.getD j false) = true))) ∧
    ((store hid).hasFds = true →
      (waitOneEntries (store hid) = [] →
        (dkObjectsWaitAny store [some hid] outcome opsWaitRes
          unixToPal).ret = -PAL_ERROR_TRYAGAIN) ∧
      (waitOneEntries (store hid) ≠ [] →
        ∀ e, outcome = .fail e → (e = EINTR ∨ e = ERESTART) →
        (dkObjectsWaitAny store [some hid] outcome opsWaitRes
          unixToPal).ret = -PAL_ERROR_INTERRUPTED) ∧
      (∀ revs, outcome = .ready revs →
        (zipRevents (waitOneEntries (store hid)) revs).countP
          (fun x => !x.2.isZero) = 0 →
        waitOneEntries (store hid) ≠ [] →
        (dkObjectsWaitAny store [some hid] outcome opsWaitRes
          unixToPal).ret = -PAL_ERROR_TRYAGAIN) ∧
      (∀ revs, outcome = .ready revs →
        (zipRevents (waitOneEntries (store hid)) revs).countP
          (fun x => !x.2.isZero) ≠ 0 →
        (dkObjectsWaitAny store [some hid] outcome opsWaitRes
          unixToPal).ret = 0 ∧
        (dkObjectsWaitAny store [some hid] outcome opsWaitRes
          unixToPal).polled = some hid ∧
        (∀ fd j rev,
          ((fd, j), rev) ∈ zipRevents (waitOneEntries (store hid)) revs →
          rev.isZero = false →
          (rev.pollhup || rev.pollerr) = true →
          j < (store hid).errorFlags.length →
          (((dkObjectsWaitAny store [some hid] outcome opsWaitRes
            unixToPal).store hid).errorFlags.getD j false) = true))) := by
  constructor
  · intro hany
    refine ⟨?_, ?_, ?_, ?_⟩
    · intro hempty
      rw [dkObjectsWaitAny_multi]
      unfold dkObjectsWaitAnyMulti
      rw [hany]
      simp [hempty]
    · intro hne e hout hee
      subst hout
      rw [dkObjectsWaitAny_multi]
      unfold dkObjectsWaitAnyMulti
      rw [hany]
      simp [hne, hee]
    · intro revs hout hc hne
      subst hout
      rw [dkObjectsWaitAny_multi]
      unfold dkObjectsWaitAnyMulti
      rw [hany]
      simp [hne, hc]
    · intro revs hout hc
      subst hout
      obtain ⟨hne, w, hw1, hw2⟩ := zipRevents_countP_ne_zero hc
      have hsome : (applyRevents store none
          (zipRevents (buildPollList store (a :: b :: rest) [])
            revs)).2.isSome = true :=
        applyRevents_isSome _ store none ⟨w, hw1, hw2⟩
      have hred : dkObjectsWaitAny store (a :: b :: rest) (.ready revs)
          opsWaitRes unixToPal =
          { ret := 0,
            polled := (applyRevents store none
              (zipRevents (buildPollList store (a :: b :: rest) [])
                revs)).2,
            store := (applyRevents store none
              (zipRevents (buildPollList store (a :: b :: rest) [])
                revs)).1 } := by
        rw [dkObjectsWaitAny_multi]
        unfold dkObjectsWaitAnyMulti
        rw [hany]
        simp [hne, hc, hsome]
      refine ⟨by rw [hred], ?_, ?_⟩
      · rw [hred]
        exact hsome
      · intro fd hid2 rev j hmem hz hpolled he hfs hlen
        rw [hred] at hpolled
        rw [hred]
        exact applyRevents_records_error _ hid2 fd j rev hmem hz he store
          none hfs hlen hpolled (Or.inl rfl)
  · intro hfds
    have hone : ∀ oc, dkObjectsWaitAny store [some hid] oc opsWaitRes
        unixToPal =
        { dkObjectWaitOne store hid oc opsWaitRes unixToPal with
          polled := some hid } := fun oc => rfl
    refine ⟨?_, ?_, ?_, ?_⟩
    · intro hempty
      rw [hone]
      show (dkObjectWaitOne store hid outcome opsWaitRes unixToPal).ret
        = -PAL_ERROR_TRYAGAIN
      unfold dkObjectWaitOne
      simp [hfds, hempty]
    · intro hne e hout hee
      subst hout
      rw [hone]
      show (dkObjectWaitOne store hid (.fail e) opsWaitRes unixToPal).ret
        = -PAL_ERROR_INTERRUPTED
      unfold dkObjectWaitOne
      simp [hfds, hne, hee]
    · intro revs hout hc hne
      subst hout
      rw [hone]
      show (dkObjectWaitOne store hid (.ready revs) opsWaitRes
        unixToPal).ret = -PAL_ERROR_TRYAGAIN
      unfold dkObjectWaitOne
      simp [hfds, hne, hc]
    · intro revs hout hc
      subst hout
      obtain ⟨hne, w, hw1, hw2⟩ := zipRevents_countP_ne_zero hc
      have hred : dkObjectsWaitAny store [some hid] (.ready revs)
          opsWaitRes unixToPal =
          { ret := 0, polled := some hid,
            store := storeSet store hid
              (applyWaitOneRevents (store hid)
                (zipRevents (waitOneEntries (store hid)) revs)) } := by
        rw [hone]
        suffices hsuf : dkObjectWaitOne store hid (.ready revs) opsWaitRes
            unixToPal =
            { ret := 0, polled := none,
              store := storeSet store hid
                (applyWaitOneRevents (store hid)
                  (zipRevents (waitOneEntries (store hid)) revs)) } by
          rw [hsuf]
        unfold dkObjectWaitOne
        simp [hfds, hne, hc]
      refine ⟨by rw [hred], by rw [hred], ?_⟩
      intro fd j rev hmem hz he hlen
      rw [hred]
      show ((storeSet store hid (applyWaitOneRevents (store hid)
          (zipRevents (waitOneEntries (store hid)) revs))
        hid).errorFlags.getD j false) = true
      unfold storeSet
      simp only [if_pos rfl]
      exact applyWaitOne_records_error _ fd j rev hmem hz he (store hid)
        hlen

/-- A concrete two-handle store: handle 1 (the wakeup event) reads fd 4,
handle 2 (a port) reads fd 5; no flags set. -/
def c7Store : HandleStore := fun h =>
  if h = 1 then
    { hasFds := true, rfd := [true, false, false]
      wfd := [false, false, false], writeable := [false, false, false]
      errorFlags := [false, false, false], fds := [4, 0, 0] }
  else
    { hasFds := true, rfd := [true, false, false]
      wfd := [false, false, false], writeable := [false, false, false]
      errorFlags := [false, false, false], fds := [5, 0, 0] }

/-- Witness for C7: polling handles 1 and 2 where only handle 2 reports
POLLHUP succeeds (returns 0), records the `ERROR` flag on handle 2 slot 0,
and a poll interrupted by EINTR reports the interrupted indicator. -/
theorem C7_dk_objects_wait_any_witness :
    (dkObjectsWaitAny c7Store [some 1, some 2]
      (.ready [{}, { pollhup := true }]) none (fun e => -(e : Int))).ret
      = 0 ∧
    ((dkObjectsWaitAny c7Store [some 1, some 2]
      (.ready [{}, { pollhup := true }]) none
      (fun e => -(e : Int))).store 2).errorFlags.getD 0 false = true ∧
    (dkObjectsWaitAny c7Store [some 1, some 2] (.fail EINTR) none
      (fun e => -(e : Int))).ret = -PAL_ERROR_INTERRUPTED := by
  refine ⟨?_, ?_, ?_⟩
  · exact (((C7_dk_objects_wait_any c7Store (some 1) (some 2) []
      (.ready [{}, { pollhup := true }]) none (fun e => -(e : Int)) 1).1
      (by decide)).2.2.2 [{}, { pollhup := true }] rfl (by decide)).1
  · exact ((((C7_dk_objects_wait_any c7Store (some 1) (some 2) []
      (.ready [{}, { pollhup := true }]) none (fun e => -(e : Int)) 1).1
      (by decide)).2.2.2 [{}, { pollhup := true }] rfl (by decide)).2.2
      5 2 { pollhup := true } 0 (by decide) (by decide) (by decide)
      (by decide) (by decide) (by decide))
  · exact (((C7_dk_objects_wait_any c7Store (some 1) (some 2) []
      (.fail EINTR) none (fun e => -(e : Int)) 1).1 (by decide)).2.1
      (by decide) EINTR rfl (Or.inl rfl))

end Graphene
